import Mathlib

/-
  Verification development for the gohan goplugin extension runtime and
  the schema property filter.

  The definitions below are a shallow embedding of:
    - src/schema/property_filter.go            (filter strategies)
    - src/extension/goplugin/auth.go           (registry, dispatcher, marshaler, clone)
    - src/extension/goplugin/schemas.go        (transactional CRUD orchestrator)

  Go maps with string keys are embedded as association lists (first match
  wins; keys are unique in a Go map); the unordered iteration over the
  keys of a priority map is embedded as an explicit key list whose order is
  arbitrary (theorems show the dispatch outcome does not depend on it).
  Fallible Go code returns an explicit Outcome value whose fatal
  constructor stands for a Go panic (including failed type assertions),
  distinct from an ordinary error return.
-/

namespace Gohan

/-- Errors visible to extensions. txResourceNotFound embeds
transaction.ErrResourceNotFound (the storage collaborator signal) and
resourceNotFound embeds goext.ErrResourceNotFound (extension-facing). -/
inductive GoErr where
  | resourceNotFound
  | txResourceNotFound
  | msg (s : String)
deriving DecidableEq, Repr

/-- Printable text of an error, used when an error is embedded in a wrapped
message string. -/
def errText : GoErr → String
  | .resourceNotFound => "resource not found"
  | .txResourceNotFound => "resource not found"
  | .msg s => s

/-- Result of running a piece of Go code: a normal value, an ordinary error
return, or a fatal stop (panic / failed type assertion). -/
inductive Outcome (α : Type) where
  | ok (a : α)
  | err (e : GoErr)
  | fatal (m : String)
deriving Repr

/-- True exactly on the fatal constructor. -/
def Outcome.isFatalB {α : Type} : Outcome α → Bool
  | .fatal _ => true
  | _ => false

/-- True exactly on the ok constructor. -/
def Outcome.isOkB {α : Type} : Outcome α → Bool
  | .ok _ => true
  | _ => false

/-- Generic attribute value, the embedding of a Go interface-typed value as
it appears in a request context or an attribute map. vTx carries the state
of a transaction handle stored under the transaction key. -/
inductive Value where
  | vNull
  | vStr (s : String)
  | vInt (n : Int)
  | vFloat (q : Rat)
  | vBool (b : Bool)
  | vMap (entries : List (String × Value))
  | vTx (closed : Bool)

/-- Association-list lookup, first match wins (Go map read). -/
def alookup {α : Type} : List (String × α) → String → Option α
  | [], _ => none
  | (k, v) :: rest, key => if k = key then some v else alookup rest key

/-- An attribute map (Go map from string to interface value). -/
abbrev AttrMap := List (String × Value)

/-- A request context is an attribute map as well. -/
abbrev Ctx := List (String × Value)

/-- Go map assignment: replace the binding of the key when present,
otherwise add it. -/
def ctxSet : Ctx → String → Value → Ctx
  | [], k, v => [(k, v)]
  | (k', v') :: rest, k, v =>
    if k' = k then (k, v) :: rest else (k', v') :: ctxSet rest k v

/-- Go map read on a context. -/
def ctxGet (ctx : Ctx) (k : String) : Option Value := alookup ctx k

/- ===================== Property filter (src/schema/property_filter.go) ===================== -/

/-- The four filter strategies of property_filter.go. The visible and
hidden strategies carry the key list that sliceToSet turns into a set. -/
inductive FilterStrategy where
  | includeAll
  | excludeAll
  | visibleF (props : List String)
  | hiddenF (props : List String)
deriving DecidableEq, Repr

/-- FilterStrategy.Filter: includeAllFilter admits all keys, excludeAllFilter
none, visibleFilter admits a key in its set and hiddenFilter one outside. -/
def FilterStrategy.filterKey : FilterStrategy → String → Bool
  | .includeAll, _ => true
  | .excludeAll, _ => false
  | .visibleF ps, s => ps.contains s
  | .hiddenF ps, s => !(ps.contains s)

/-- FilterFactory.createFilterStrategy: a nil visible and nil hidden list
give includeAll, exactly one non-nil list gives that strategy, and both
non-nil is a configuration error. A Go nil slice is embedded as none. -/
def createFilterStrategy (visible hidden : Option (List String)) :
    Except String FilterStrategy :=
  match visible, hidden with
  | none, none => .ok .includeAll
  | none, some h => .ok (.hiddenF h)
  | some v, none => .ok (.visibleF v)
  | some _, some _ =>
    .error "Cannot have filter with both visible and hidden properties"

/-- Filter.RemoveHiddenKeysFromMap: build a new map holding the entries
whose key passes the strategy. -/
def removeHiddenKeysFromMap (f : FilterStrategy) (data : AttrMap) : AttrMap :=
  data.filter (fun kv => f.filterKey kv.1)

/-- Filter.RemoveHiddenKeysFromSlice: keep, in order, the keys that pass
the strategy. -/
def removeHiddenKeysFromSlice (f : FilterStrategy) (data : List String) :
    List String :=
  data.filter (fun k => f.filterKey k)

/-- Filter.IsForbidden: a key is forbidden when the strategy rejects it. -/
def isForbidden (f : FilterStrategy) (key : String) : Bool :=
  !(f.filterKey key)

/-- Filter.AllowsAll: true exactly for the includeAll strategy. -/
def allowsAll : FilterStrategy → Bool
  | .includeAll => true
  | _ => false

/- ===================== Resource marshaler (src/extension/goplugin/auth.go) ===================== -/

/-- Declared shape of one field of a registered raw resource type: a plain
scalar, or one of the goext nullable wrapper structs (a value plus a
validity flag). -/
inductive FieldType where
  | tStr | tInt | tFloat | tBool
  | tNullStr | tNullInt | tNullFloat | tNullBool
deriving DecidableEq, Repr

/-- Runtime value of one field of a raw resource struct. -/
inductive FieldVal where
  | fStr (s : String)
  | fInt (n : Int)
  | fFloat (q : Rat)
  | fBool (b : Bool)
  | fNullStr (value : String) (valid : Bool)
  | fNullInt (value : Int) (valid : Bool)
  | fNullFloat (value : Rat) (valid : Bool)
  | fNullBool (value : Bool) (valid : Bool)
deriving DecidableEq, Repr

/-- The declared type of a field value (reflect.Type of the field). -/
def fieldTypeOf : FieldVal → FieldType
  | .fStr _ => .tStr
  | .fInt _ => .tInt
  | .fFloat _ => .tFloat
  | .fBool _ => .tBool
  | .fNullStr _ _ => .tNullStr
  | .fNullInt _ _ => .tNullInt
  | .fNullFloat _ _ => .tNullFloat
  | .fNullBool _ _ => .tNullBool

/-- One struct field of a registered raw type: its db struct tag and its
declared type. -/
structure FieldDesc where
  tag : String
  ftype : FieldType
deriving DecidableEq, Repr

/-- A registered raw resource type: its ordered struct fields. -/
structure RawType where
  fields : List FieldDesc
deriving DecidableEq, Repr

/-- The zero value of a field type (reflect.New semantics). -/
def zeroFieldVal : FieldType → FieldVal
  | .tStr => .fStr ""
  | .tInt => .fInt 0
  | .tFloat => .fFloat 0
  | .tBool => .fBool false
  | .tNullStr => .fNullStr "" false
  | .tNullInt => .fNullInt 0 false
  | .tNullFloat => .fNullFloat 0 false
  | .tNullBool => .fNullBool false false

/-- A raw resource instance: the field values of its struct, each paired
with the db tag of the field. -/
abbrev RawResource := List (String × FieldVal)

/-- The zero resource of a raw type (reflect.New of the type). -/
def zeroResource (T : RawType) : RawResource :=
  T.fields.map (fun fd => (fd.tag, zeroFieldVal fd.ftype))

/-- Environment.resourceToMap on a single field value: a goext nullable
wrapper yields its value when valid and nil otherwise; a plain scalar is
emitted as-is. -/
def fieldToValue : FieldVal → Value
  | .fStr s => .vStr s
  | .fInt n => .vInt n
  | .fFloat q => .vFloat q
  | .fBool b => .vBool b
  | .fNullStr v true => .vStr v
  | .fNullStr _ false => .vNull
  | .fNullInt v true => .vInt v
  | .fNullInt _ false => .vNull
  | .fNullFloat v true => .vFloat v
  | .fNullFloat _ false => .vNull
  | .fNullBool v true => .vBool v
  | .fNullBool _ false => .vNull

/-- Environment.resourceToMap on a struct resource: one map entry per
field, keyed by the db tag of the field. -/
def resourceToMapEntries (r : RawResource) : AttrMap :=
  r.map (fun f => (f.1, fieldToValue f.2))

/-- Environment.resourceToMap result as a generic value. -/
def resourceToMap (r : RawResource) : Value :=
  .vMap (resourceToMapEntries r)

/-- Go int64 conversion of a float64: truncation toward zero. -/
def truncRat (q : Rat) : Int := q.num.tdiv (q.den : Int)

/-- Modelled from the spec: the JSON re-encoding step of fromMap for a
goext nullable wrapper field (the goext Null types and encoding/json are
outside src/). Per sections 4.3 and 8 of the spec, a null or absent source
value decodes to the invalid wrapper, a concrete value of the wrapped type
decodes to the valid wrapper holding it, and a JSON number decodes into an
integer wrapper only when integral; any other value is a decode error. -/
def jsonDecodeNull (ft : FieldType) (v : Option Value) : Outcome FieldVal :=
  match ft, v with
  | .tNullStr, none => .ok (.fNullStr "" false)
  | .tNullStr, some .vNull => .ok (.fNullStr "" false)
  | .tNullStr, some (.vStr s) => .ok (.fNullStr s true)
  | .tNullInt, none => .ok (.fNullInt 0 false)
  | .tNullInt, some .vNull => .ok (.fNullInt 0 false)
  | .tNullInt, some (.vInt n) => .ok (.fNullInt n true)
  | .tNullInt, some (.vFloat q) =>
    if q.den = 1 then .ok (.fNullInt q.num true)
    else .err (.msg "json: cannot unmarshal number into value of integer type")
  | .tNullFloat, none => .ok (.fNullFloat 0 false)
  | .tNullFloat, some .vNull => .ok (.fNullFloat 0 false)
  | .tNullFloat, some (.vFloat q) => .ok (.fNullFloat q true)
  | .tNullFloat, some (.vInt n) => .ok (.fNullFloat (n : Rat) true)
  | .tNullBool, none => .ok (.fNullBool false false)
  | .tNullBool, some .vNull => .ok (.fNullBool false false)
  | .tNullBool, some (.vBool b) => .ok (.fNullBool b true)
  | _, _ => .err (.msg "json: cannot unmarshal value into nullable field")

/-- The non-struct branch of the resourceFromContext field loop: an absent
key or a nil value leaves the field at its current value (the reflect value
is invalid, so the assignment is skipped); a value of the declared field
type is assigned; a float64 source assigned to an int field is truncated
(reflect treats a generic number as float); any other assignment is a
fatal reflect type mismatch. -/
def decodeScalarInto (ft : FieldType) (cur : FieldVal) (v : Option Value) :
    Outcome FieldVal :=
  match v with
  | none => .ok cur
  | some .vNull => .ok cur
  | some w =>
    match ft, w with
    | .tStr, .vStr s => .ok (.fStr s)
    | .tInt, .vInt n => .ok (.fInt n)
    | .tInt, .vFloat q => .ok (.fInt (truncRat q))
    | .tFloat, .vFloat q => .ok (.fFloat q)
    | .tBool, .vBool b => .ok (.fBool b)
    | _, _ => .fatal "reflect: Set using value of wrong type"

/-- One field of Environment.resourceFromContext: an empty db tag is a
configuration error; a tag that is not a property ID of the schema is a
lookup error; a nullable wrapper field (struct kind) goes through the JSON
re-encoding; a scalar field is assigned directly. The field starts at the
zero value of its type, as the resource was freshly allocated. -/
def decodeField (props : List String) (data : AttrMap) (fd : FieldDesc) :
    Outcome FieldVal :=
  if fd.tag = "" then
    .err (.msg "Missing tag db for resource field")
  else if !(props.contains fd.tag) then
    .err (.msg ("property with ID " ++ fd.tag ++ " not found"))
  else
    match fd.ftype with
    | .tNullStr => jsonDecodeNull .tNullStr (alookup data fd.tag)
    | .tNullInt => jsonDecodeNull .tNullInt (alookup data fd.tag)
    | .tNullFloat => jsonDecodeNull .tNullFloat (alookup data fd.tag)
    | .tNullBool => jsonDecodeNull .tNullBool (alookup data fd.tag)
    | ft => decodeScalarInto ft (zeroFieldVal ft) (alookup data fd.tag)

/-- The field loop of Environment.resourceFromContext over all fields of
the raw type, stopping at the first failure. -/
def resourceFromMapCore (props : List String) (data : AttrMap) :
    List FieldDesc → Outcome RawResource
  | [] => .ok []
  | fd :: rest =>
    match decodeField props data fd with
    | .ok v =>
      match resourceFromMapCore props data rest with
      | .ok r => .ok ((fd.tag, v) :: r)
      | .err e => .err e
      | .fatal m => .fatal m
    | .err e => .err e
    | .fatal m => .fatal m

/-- A schema as consumed by the marshaler: its ID and the IDs of its
properties (the raw gohan schema of the schema registry). -/
structure SchemaModel where
  id : String
  props : List String
deriving DecidableEq, Repr

/- ===================== Handler registry and event dispatcher (auth.go) ===================== -/

/-- A generic handler: takes the context, may mutate it, and returns an
optional error (none is success). Each registered handler carries a numeric
identity so invocation traces can name it. -/
abbrev GHandler := Ctx → Ctx × Option GoErr

/-- A schema handler: takes the context and the typed resource, may mutate
both, and returns an optional error. -/
abbrev SHandler := Ctx → RawResource → Ctx × RawResource × Option GoErr

/-- The Environment of auth.go. Go maps keyed by event, schema ID and
priority are embedded as total functions plus explicit key lists that
stand for the key sets of those maps (their order models the unordered
iteration order). handlerKeys lists the priorities registered for an event
in the generic registry; schemaHandlerSchemas lists the schema IDs under an
event in the schema registry, and schemaHandlerKeys the priorities under an
event and schema ID. schemas embeds the global schema manager lookup. -/
structure Env where
  name : String
  traceID : String
  initFns : List String
  handlerKeys : String → List Int
  handlers : String → Int → List (Nat × GHandler)
  schemaHandlerSchemas : String → List String
  schemaHandlerKeys : String → String → List Int
  schemaHandlers : String → String → Int → List (Nat × SHandler)
  rawTypes : String → Option RawType
  types : String → Option Nat
  schemas : String → Option SchemaModel

/-- Environment.RegisterEventHandler: append the handler to the bucket at
(event, priority), creating the intermediate map levels on demand. -/
def registerEventHandler (env : Env) (event : String) (h : Nat × GHandler)
    (priority : Int) : Env :=
  { env with
    handlerKeys := fun e =>
      if e = event then
        if priority ∈ env.handlerKeys e then env.handlerKeys e
        else env.handlerKeys e ++ [priority]
      else env.handlerKeys e
    handlers := fun e p =>
      if e = event ∧ p = priority then env.handlers e p ++ [h]
      else env.handlers e p }

/-- Environment.RegisterSchemaEventHandler: append the handler to the
bucket at (event, schemaID, priority), creating intermediate levels on
demand. -/
def registerSchemaEventHandler (env : Env) (schemaID : String)
    (event : String) (h : Nat × SHandler) (priority : Int) : Env :=
  { env with
    schemaHandlerSchemas := fun e =>
      if e = event then
        if schemaID ∈ env.schemaHandlerSchemas e then env.schemaHandlerSchemas e
        else env.schemaHandlerSchemas e ++ [schemaID]
      else env.schemaHandlerSchemas e
    schemaHandlerKeys := fun e sid =>
      if e = event ∧ sid = schemaID then
        if priority ∈ env.schemaHandlerKeys e sid then env.schemaHandlerKeys e sid
        else env.schemaHandlerKeys e sid ++ [priority]
      else env.schemaHandlerKeys e sid
    schemaHandlers := fun e sid p =>
      if e = event ∧ sid = schemaID ∧ p = priority then
        env.schemaHandlers e sid p ++ [h]
      else env.schemaHandlers e sid p }

/-- sortSchemaHandlers and sortHandlers: collect the priorities of the map
(in whatever order the map yields them) and sort them ascending
(sort.Ints). Insertion sort produces the same ascending order sort.Ints
does. -/
def sortInts (l : List Int) : List Int :=
  List.insertionSort (· ≤ ·) l

/-- Environment.resourceFromContext: resolve the registered raw type of
the schema, allocate a zero resource and fill it from the resource map of
the context. A missing resource key leaves the zero resource; a resource
that is not a map is a failed type assertion. -/
def resourceFromContext (env : Env) (sch : SchemaModel) (ctx : Ctx) :
    Outcome RawResource :=
  match env.rawTypes sch.id with
  | none => .err (.msg ("No type registered for title: " ++ sch.id))
  | some T =>
    match ctxGet ctx "resource" with
    | none => .ok (zeroResource T)
    | some (.vMap data) => resourceFromMapCore sch.props data T.fields
    | some _ => .fatal "interface conversion: context resource is not a map"

/-- Observable actions of a run: the start of an event dispatch (with the
context it starts from), a handler invocation, and the storage calls made
through the transaction. -/
inductive Act where
  | dispatchStart (event : String) (ctx : Ctx)
  | invoke (hid : Nat)
  | storageList (filter : AttrMap)
  | storageFetch (filter : AttrMap)
  | storageCreate (m : AttrMap)
  | storageUpdate (m : AttrMap)
  | storageDelete (rid : String)
  | storageCount (filter : AttrMap)

/-- The handler identity of an invocation action. -/
def Act.invokeId : Act → Option Nat
  | .invoke hid => some hid
  | _ => none

/-- The handler identities invoked by a trace, in order. -/
def invokedIds (tr : List Act) : List Nat :=
  tr.filterMap Act.invokeId

/-- True when the action is a storage write (tx.Create, tx.Update or
tx.Delete). -/
def Act.isWrite : Act → Bool
  | .storageCreate _ => true
  | .storageUpdate _ => true
  | .storageDelete _ => true
  | _ => false

/-- A trace without storage writes. -/
def noWrites (tr : List Act) : Bool :=
  tr.all (fun a => !a.isWrite)

/-- Result of a dispatch: the context as it stands (dispatch mutates it in
place) plus an optional error, or a fatal stop. -/
inductive DispatchOut where
  | done (ctx : Ctx) (e : Option GoErr)
  | fatal (m : String)

/-- The error returned by a dispatch, none for success or a fatal stop. -/
def DispatchOut.errOf : DispatchOut → Option GoErr
  | .done _ e => e
  | .fatal _ => none

/-- True exactly on the fatal constructor. -/
def DispatchOut.isFatalB : DispatchOut → Bool
  | .fatal _ => true
  | _ => false

/-- One priority bucket of dispatchSchemaEvent: before each handler the
go_validation flag is set in the context; a handler failure aborts the
bucket immediately; after a successful handler the possibly mutated
resource is marshaled back into the resource key of the context
(StructToMap) so later handlers observe the mutation. -/
def runSchemaBucket (handlers : List (Nat × SHandler)) (ctx : Ctx)
    (res : RawResource) : List Act × Ctx × RawResource × Option GoErr :=
  match handlers with
  | [] => ([], ctx, res, none)
  | (hid, h) :: rest =>
    let ctx1 := ctxSet ctx "go_validation" (.vBool true)
    let out := h ctx1 res
    match out.2.2 with
    | some e => ([.invoke hid], out.1, out.2.1, some e)
    | none =>
      let ctx2 := ctxSet out.1 "resource" (resourceToMap out.2.1)
      let rec2 := runSchemaBucket rest ctx2 out.2.1
      (.invoke hid :: rec2.1, rec2.2)

/-- The priority loop of dispatchSchemaEvent over the already sorted
priorities. -/
def runSchemaPrios (buckets : Int → List (Nat × SHandler)) :
    List Int → Ctx → RawResource → List Act × Ctx × RawResource × Option GoErr
  | [], ctx, res => ([], ctx, res, none)
  | p :: ps, ctx, res =>
    let step := runSchemaBucket (buckets p) ctx res
    match step.2.2.2 with
    | some e => (step.1, step.2.1, step.2.2.1, some e)
    | none =>
      let rec2 := runSchemaPrios buckets ps step.2.1 step.2.2.1
      (step.1 ++ rec2.1, rec2.2)

/-- Environment.dispatchSchemaEvent: marshal the typed resource from the
context (a marshal failure is returned as a bad-request error without
invoking any handler), then run every priority bucket ascending. -/
def dispatchSchemaEvent (env : Env) (sch : SchemaModel) (keys : List Int)
    (buckets : Int → List (Nat × SHandler)) (event : String) (ctx : Ctx) :
    List Act × DispatchOut :=
  match resourceFromContext env sch ctx with
  | .fatal m => ([], .fatal m)
  | .err e =>
    ([], .done ctx (some (.msg
      ("failed to parse resource from context with schema " ++ sch.id ++
       " for event " ++ event ++ ": " ++ errText e))))
  | .ok res =>
    let run := runSchemaPrios buckets (sortInts keys) ctx res
    (run.1, .done run.2.1 run.2.2.2)

/-- The broadcast branch of HandleEvent: no schema ID in the context, so
dispatch to every schema registered under the event, in the iteration
order of the schema map; a schema the manager cannot find aborts with an
error. -/
def broadcastSchemas (env : Env) (event : String) :
    List String → Ctx → List Act × DispatchOut
  | [], ctx => ([], .done ctx none)
  | sid :: rest, ctx =>
    match env.schemas sid with
    | none => ([], .done ctx (some (.msg ("could not find schema: " ++ sid))))
    | some sch =>
      let step := dispatchSchemaEvent env sch (env.schemaHandlerKeys event sid)
        (env.schemaHandlers event sid) event ctx
      match step.2 with
      | .fatal m => (step.1, .fatal m)
      | .done c (some e) => (step.1, .done c (some e))
      | .done c none =>
        let rec2 := broadcastSchemas env event rest c
        (step.1 ++ rec2.1, rec2.2)

/-- One priority bucket of the generic pass of HandleEvent; a handler
failure is wrapped with the event, priority and index of the handler. -/
def runGenericBucket (event : String) (p : Int) :
    List (Nat × GHandler) → Nat → Ctx → List Act × Ctx × Option GoErr
  | [], _, ctx => ([], ctx, none)
  | (hid, h) :: rest, idx, ctx =>
    let out := h ctx
    match out.2 with
    | some e =>
      ([.invoke hid], out.1, some (.msg
        ("failed to dispatch event " ++ event ++ " at priority " ++
         toString p ++ " with index " ++ toString idx ++ ": " ++ errText e)))
    | none =>
      let rec2 := runGenericBucket event p rest (idx + 1) out.1
      (.invoke hid :: rec2.1, rec2.2)

/-- The priority loop of the generic pass over the already sorted
priorities. -/
def runGenericPrios (event : String) (buckets : Int → List (Nat × GHandler)) :
    List Int → Ctx → List Act × Ctx × Option GoErr
  | [], ctx => ([], ctx, none)
  | p :: ps, ctx =>
    let step := runGenericBucket event p (buckets p) 0 ctx
    match step.2.2 with
    | some e => (step.1, step.2.1, some e)
    | none =>
      let rec2 := runGenericPrios event buckets ps step.2.1
      (step.1 ++ rec2.1, rec2.2)

/-- The schema-specific pass of HandleEvent: when schema handlers are
registered under the event, dispatch to the single schema the context
names (skipped silently when that schema has no handlers or the manager
does not know it, fatal when the schema_id value is not a string) or
broadcast to every registered schema when the context names none. -/
def schemaPhase (env : Env) (event : String) (ctx : Ctx) :
    List Act × DispatchOut :=
  if env.schemaHandlerSchemas event = [] then ([], .done ctx none)
  else
    match ctxGet ctx "schema_id" with
    | some (.vStr sid) =>
      if env.schemaHandlerKeys event sid = [] then ([], .done ctx none)
      else
        match env.schemas sid with
        | none => ([], .done ctx none)
        | some sch =>
          dispatchSchemaEvent env sch (env.schemaHandlerKeys event sid)
            (env.schemaHandlers event sid) event ctx
    | some _ => ([], .fatal "interface conversion: schema_id is not a string")
    | none => broadcastSchemas env event (env.schemaHandlerSchemas event) ctx

/-- Environment.HandleEvent: record the event type in the context, run the
schema-specific pass, then, unless the schema pass failed, run the generic
pass. A dispatchStart action records the context the dispatch began
with. -/
def handleEvent (env : Env) (event : String) (ctx0 : Ctx) :
    List Act × DispatchOut :=
  let ctx := ctxSet ctx0 "event_type" (.vStr event)
  let st := Act.dispatchStart event ctx
  let sphase := schemaPhase env event ctx
  match sphase.2 with
  | .fatal m => (st :: sphase.1, .fatal m)
  | .done c (some e) => (st :: sphase.1, .done c (some e))
  | .done c none =>
    let gen := runGenericPrios event (env.handlers event)
      (sortInts (env.handlerKeys event)) c
    (st :: (sphase.1 ++ gen.1), .done gen.2.1 gen.2.2)

/-- The handler identities a dispatch would invoke if no handler failed:
for each pass, priorities ascending and, within a priority bucket, the
stored (registration) order. -/
def planBuckets {α : Type} (keys : List Int) (buckets : Int → List (Nat × α)) :
    List Nat :=
  (sortInts keys).flatMap (fun p => (buckets p).map Prod.fst)

/-- The planned invocation order of the broadcast pass over the given
schema enumeration. -/
def broadcastPlan (env : Env) (event : String) (sids : List String) :
    List Nat :=
  sids.flatMap (fun sid =>
    match env.schemas sid with
    | none => []
    | some _ =>
      planBuckets (env.schemaHandlerKeys event sid)
        (env.schemaHandlers event sid))

/-- The planned invocation order of the schema pass. -/
def schemaPlanOf (env : Env) (event : String) (ctx : Ctx) : List Nat :=
  if env.schemaHandlerSchemas event = [] then []
  else
    match ctxGet ctx "schema_id" with
    | some (.vStr sid) =>
      if env.schemaHandlerKeys event sid = [] then []
      else
        match env.schemas sid with
        | none => []
        | some _ =>
          planBuckets (env.schemaHandlerKeys event sid)
            (env.schemaHandlers event sid)
    | some _ => []
    | none => broadcastPlan env event (env.schemaHandlerSchemas event)

/-- The full planned invocation order of HandleEvent: the schema pass
(single schema or broadcast) followed by the generic pass. -/
def planOf (env : Env) (event : String) (ctx0 : Ctx) : List Nat :=
  schemaPlanOf env event (ctxSet ctx0 "event_type" (.vStr event))
  ++ planBuckets (env.handlerKeys event) (env.handlers event)

/-- Reference fail-fast executor over one flattened chain of generic
handlers, following the spec words for the dispatcher: invoke the
handlers of the chain in order on the threaded context, and the first
failure ends the run — the failing handler (recorded with its error) is
the last one invoked and no handler after it runs. The dispatcher is
proved to produce exactly this invocation sequence. -/
def failFastRun : List (Nat × GHandler) → Ctx → List Nat × Ctx × Option (Nat × GoErr)
  | [], ctx => ([], ctx, none)
  | (hid, h) :: rest, ctx =>
    match h ctx with
    | (c2, some e) => ([hid], c2, some (hid, e))
    | (c2, none) =>
      let r := failFastRun rest c2
      (hid :: r.1, r.2)

/-- Reference fail-fast executor over one flattened chain of schema
handlers, following the spec words for the schema pass: before each
invocation the go_validation flag is set, after each success the mutated
resource is re-marshaled into the resource key of the context, and the
first failure ends the run with the failing handler last. -/
def failFastRunSchema :
    List (Nat × SHandler) → Ctx → RawResource →
      List Nat × Ctx × RawResource × Option (Nat × GoErr)
  | [], ctx, res => ([], ctx, res, none)
  | (hid, h) :: rest, ctx, res =>
    match h (ctxSet ctx "go_validation" (.vBool true)) res with
    | (c2, r2, some e) => ([hid], c2, r2, some (hid, e))
    | (c2, r2, none) =>
      let r := failFastRunSchema rest (ctxSet c2 "resource" (resourceToMap r2)) r2
      (hid :: r.1, r.2)

/-- Environment.Clone: a fresh environment copying the init functions,
hooks, name, capability bindings and the raw and full type registries,
with a freshly generated trace identifier. The handler registries are not
copied: the clone starts with the zero (empty) registries. -/
def cloneEnv (env : Env) (freshTraceID : String) : Env :=
  { name := env.name
    traceID := freshTraceID
    initFns := env.initFns
    handlerKeys := fun _ => []
    handlers := fun _ _ => []
    schemaHandlerSchemas := fun _ => []
    schemaHandlerKeys := fun _ _ => []
    schemaHandlers := fun _ _ _ => []
    rawTypes := env.rawTypes
    types := env.types
    schemas := env.schemas }

/- ===================== Transactional CRUD orchestrator (src/extension/goplugin/schemas.go) ===================== -/

/-- ErrNotPointer of schemas.go: the distinguished error value returned
when a raw resource is not passed by a pointer. -/
def errNotPointer : GoErr := .msg "raw resource must be passed by a pointer"

/-- makeErrMissingType of schemas.go. -/
def makeErrMissingType (missingType : String) : GoErr :=
  .msg ("resource type " ++ missingType ++ " not registered")

/-- A raw resource argument as passed through an interface value: either a
pointer to a raw resource struct or some non-pointer value. -/
inductive ResourceArg where
  | ptr (r : RawResource)
  | nonPtr

/-- isPointer of schemas.go. -/
def isPointerArg : ResourceArg → Bool
  | .ptr _ => true
  | .nonPtr => false

/-- Modelled from the spec: contextGetTransaction (defined outside src/)
reads the transaction key of the request context; per section 3 the
context holds the opaque transaction handle under that key. The boolean
result is false when the key is absent or does not hold a transaction. -/
def contextGetTransaction (ctx : Ctx) : Option Bool :=
  match ctxGet ctx "transaction" with
  | some (.vTx closed) => some closed
  | _ => none

/-- mustGetOpenTransactionFromContext: a nil context, a context without a
transaction, or a closed transaction stop execution fatally; otherwise the
open transaction (its closed flag, false) is returned. -/
def mustGetOpenTransactionFromContext : Option Ctx → Outcome Bool
  | none => .fatal "Database function called without open transaction"
  | some ctx =>
    match contextGetTransaction ctx with
    | none => .fatal "Database function called without open transaction"
    | some closed =>
      if closed then .fatal "Database function called without open transaction"
      else .ok closed

/-- An open, non-closed transaction is present in the request context. -/
def hasOpenTransaction : Option Ctx → Bool
  | none => false
  | some ctx =>
    match contextGetTransaction ctx with
    | some closed => !closed
    | none => false

/-- The storage collaborator behind the transaction interface: the result
each storage method would produce for a given argument. -/
structure Storage where
  listRes : AttrMap → Except GoErr (List AttrMap)
  fetchRes : AttrMap → Except GoErr AttrMap
  lockFetchRes : AttrMap → Except GoErr AttrMap
  createRes : AttrMap → Option GoErr
  updateRes : AttrMap → Option GoErr
  deleteRes : String → Option GoErr
  countRes : AttrMap → Except GoErr Nat

/-- Outcome.map applies a function to a normal result. -/
def Outcome.map {α β : Type} (g : α → β) : Outcome α → Outcome β
  | .ok a => .ok (g a)
  | .err e => .err e
  | .fatal m => .fatal m

/-- Modelled from the spec: one field of the standalone resourceFromMap
helper called by create, update and Schema.ResourceFromMap (its file is
not under src/). Per section 4.3, a field whose key is missing from the
source map keeps its current value, a nullable wrapper field goes through
the JSON re-encoding, and a scalar field is assigned directly with the
float-to-int coercion. -/
def decodeFieldInto (data : AttrMap) (f : String × FieldVal) :
    Outcome (String × FieldVal) :=
  match fieldTypeOf f.2 with
  | .tNullStr => (jsonDecodeNull .tNullStr (alookup data f.1)).map (fun v => (f.1, v))
  | .tNullInt => (jsonDecodeNull .tNullInt (alookup data f.1)).map (fun v => (f.1, v))
  | .tNullFloat => (jsonDecodeNull .tNullFloat (alookup data f.1)).map (fun v => (f.1, v))
  | .tNullBool => (jsonDecodeNull .tNullBool (alookup data f.1)).map (fun v => (f.1, v))
  | ft => (decodeScalarInto ft f.2 (alookup data f.1)).map (fun v => (f.1, v))

/-- Modelled from the spec: the standalone resourceFromMap helper, filling
the fields of an existing resource in place from an attribute map (section
4.3 fromMap). -/
def resourceFillFromMap (data : AttrMap) : RawResource → Outcome RawResource
  | [] => .ok []
  | f :: rest =>
    match decodeFieldInto data f with
    | .ok f2 =>
      match resourceFillFromMap data rest with
      | .ok r => .ok (f2 :: r)
      | .err e => .err e
      | .fatal m => .fatal m
    | .err e => .err e
    | .fatal m => .fatal m

/-- Schema.ResourceFromMap: resolve the registered raw type of the schema,
allocate a zero resource and fill it from the attribute map with the
standalone resourceFromMap helper. -/
def schemaResourceFromMap (env : Env) (sch : SchemaModel) (data : AttrMap) :
    Outcome RawResource :=
  match env.rawTypes sch.id with
  | none => .err (makeErrMissingType sch.id)
  | some T => resourceFillFromMap data (zeroResource T)

/-- The row loop of listImpl: convert every fetched row with
Schema.ResourceFromMap, stopping at the first failure. -/
def rowsToResources (env : Env) (sch : SchemaModel) :
    List AttrMap → Outcome (List RawResource)
  | [] => .ok []
  | d :: rest =>
    match schemaResourceFromMap env sch d with
    | .ok r =>
      match rowsToResources env sch rest with
      | .ok rs => .ok (r :: rs)
      | .err e => .err e
      | .fatal m => .fatal m
    | .err e => .err e
    | .fatal m => .fatal m

/-- Schema.ListRaw via listImpl: require an open transaction, call
tx.List with the filter and convert each returned row into a raw
resource. -/
def listRaw (env : Env) (sch : SchemaModel) (storage : Storage)
    (filter : AttrMap) (requestContext : Option Ctx) :
    List Act × Outcome (List RawResource) :=
  match mustGetOpenTransactionFromContext requestContext with
  | .fatal m => ([], .fatal m)
  | .err e => ([], .err e)
  | .ok _ =>
    match storage.listRes filter with
    | .error e => ([.storageList filter], .err e)
    | .ok data => ([.storageList filter], rowsToResources env sch data)

/-- fetchImplFilter: require an open transaction, run the supplied fetch
and map the storage not-found signal to the extension-facing
ErrResourceNotFound, passing every other error through unchanged; a
fetched row is converted with Schema.ResourceFromMap. -/
def fetchImplFilter (env : Env) (sch : SchemaModel)
    (fetch : AttrMap → Except GoErr AttrMap) (filter : AttrMap)
    (requestContext : Option Ctx) : List Act × Outcome RawResource :=
  match mustGetOpenTransactionFromContext requestContext with
  | .fatal m => ([], .fatal m)
  | .err e => ([], .err e)
  | .ok _ =>
    match fetch filter with
    | .error e =>
      ([.storageFetch filter],
       .err (if e = .txResourceNotFound then .resourceNotFound else e))
    | .ok data => ([.storageFetch filter], schemaResourceFromMap env sch data)

/-- The filter used by fetchImpl for a fetch by ID. -/
def idFilter (id : String) : AttrMap := [("id", .vStr id)]

/-- Schema.FetchRaw via fetchImpl: fetch by ID with tx.Fetch. -/
def fetchRaw (env : Env) (sch : SchemaModel) (storage : Storage) (id : String)
    (requestContext : Option Ctx) : List Act × Outcome RawResource :=
  fetchImplFilter env sch storage.fetchRes (idFilter id) requestContext

/-- Schema.LockFetchRaw via fetchImpl: fetch by ID with tx.LockFetch. -/
def lockFetchRaw (env : Env) (sch : SchemaModel) (storage : Storage)
    (id : String) (requestContext : Option Ctx) :
    List Act × Outcome RawResource :=
  fetchImplFilter env sch storage.lockFetchRes (idFilter id) requestContext

/-- Schema.FetchFilterRaw: fetch by filter with tx.Fetch. -/
def fetchFilterRaw (env : Env) (sch : SchemaModel) (storage : Storage)
    (filter : AttrMap) (requestContext : Option Ctx) :
    List Act × Outcome RawResource :=
  fetchImplFilter env sch storage.fetchRes filter requestContext

/-- Schema.LockFetchFilterRaw: fetch by filter with tx.LockFetch. -/
def lockFetchFilterRaw (env : Env) (sch : SchemaModel) (storage : Storage)
    (filter : AttrMap) (requestContext : Option Ctx) :
    List Act × Outcome RawResource :=
  fetchImplFilter env sch storage.lockFetchRes filter requestContext

/-- Schema.Count: require an open transaction and pass the filter to
tx.Count. -/
def scount (storage : Storage) (filter : AttrMap)
    (requestContext : Option Ctx) : List Act × Outcome Nat :=
  match mustGetOpenTransactionFromContext requestContext with
  | .fatal m => ([], .fatal m)
  | .err e => ([], .err e)
  | .ok _ =>
    match storage.countRes filter with
    | .error e => ([.storageCount filter], .err e)
    | .ok n => ([.storageCount filter], .ok n)

/-- The type assertion mapFromResource of create applies to the id entry:
the attribute map must bind id to a string. -/
def assertIdString (m : AttrMap) : Outcome String :=
  match alookup m "id" with
  | some (.vStr s) => .ok s
  | _ => .fatal "interface conversion: interface is not a string"

/-- contextGetMapResource: the resource key of the context must hold an
attribute map. -/
def contextGetMapResource (ctx : Ctx) : Outcome AttrMap :=
  match ctxGet ctx "resource" with
  | some (.vMap m) => .ok m
  | _ => .fatal "interface conversion: context resource is not a map"

/-- Modelled from the spec: goext.Context Clone and the WithResource,
WithResourceID and WithSchemaID helpers (defined outside src/). Per
section 3, Clone yields an independent copy of the key/value bag and the
With helpers record the resource map, resource ID and schema ID under
their respective keys. In this pure embedding Clone is the identity on
the context value. -/
def buildOpCtx (ctx : Ctx) (m : AttrMap) (rid : String) (sid : String) : Ctx :=
  ctxSet (ctxSet (ctxSet ctx "resource" (.vMap m)) "resource_id" (.vStr rid))
    "schema_id" (.vStr sid)

/-- The tail of Schema.create after the pointer check, the transaction
guard and the resource-id assertion: build the cloned dispatch context,
fire the pre-create event (goext.PreCreateTx, embedded as pre_create)
when events are enabled, write the current resource map of the context
through tx.Create, fill the caller resource in place from that map, and
fire the post-create event. -/
def screateMain (env : Env) (sch : SchemaModel) (storage : Storage)
    (r : RawResource) (rid : String) (c : Ctx) (triggerEvents : Bool) :
    List Act × Outcome RawResource :=
  let contextCopy := buildOpCtx c (resourceToMapEntries r) rid sch.id
  let pre :=
    if triggerEvents then handleEvent env "pre_create" contextCopy
    else ([], .done contextCopy none)
  match pre.2 with
  | .fatal m => (pre.1, .fatal m)
  | .done _ (some e) => (pre.1, .err e)
  | .done cc none =>
    match contextGetMapResource cc with
    | .fatal m => (pre.1, .fatal m)
    | .err e => (pre.1, .err e)
    | .ok mapFromContext =>
      let acts1 := pre.1 ++ [.storageCreate mapFromContext]
      match storage.createRes mapFromContext with
      | some e => (acts1, .err e)
      | none =>
        match resourceFillFromMap mapFromContext r with
        | .err e => (acts1, .err e)
        | .fatal m => (acts1, .fatal m)
        | .ok r2 =>
          if triggerEvents then
            let post := handleEvent env "post_create" cc
            match post.2 with
            | .fatal m => (acts1 ++ post.1, .fatal m)
            | .done _ (some e) => (acts1 ++ post.1, .err e)
            | .done _ none => (acts1 ++ post.1, .ok r2)
          else (acts1, .ok r2)

/-- Schema.create (CreateRaw with events, DbCreateRaw without): a
non-pointer resource returns ErrNotPointer; an absent open transaction is
fatal; the id entry of the marshaled resource map must be a string. -/
def screate (env : Env) (sch : SchemaModel) (storage : Storage)
    (arg : ResourceArg) (requestContext : Option Ctx) (triggerEvents : Bool) :
    List Act × Outcome RawResource :=
  if !(isPointerArg arg) then ([], .err errNotPointer)
  else
    match mustGetOpenTransactionFromContext requestContext with
    | .fatal m => ([], .fatal m)
    | .err e => ([], .err e)
    | .ok _ =>
      match arg with
      | .nonPtr => ([], .err errNotPointer)
      | .ptr r =>
        match assertIdString (resourceToMapEntries r) with
        | .fatal m => ([], .fatal m)
        | .err e => ([], .err e)
        | .ok rid =>
          screateMain env sch storage r rid (requestContext.getD [])
            triggerEvents

/-- Modelled from the spec: structToResource wraps the marshaled map in a
gohan schema resource (gohan_schema.NewResource is outside src/); its ID
accessor yields the id entry of the map, the empty string when absent or
not a string. -/
def resourceDataId (m : AttrMap) : String :=
  match alookup m "id" with
  | some (.vStr s) => s
  | _ => ""

/-- The tail of Schema.update after the pointer check and the transaction
guard: build the cloned dispatch context, fire the pre-update event when
events are enabled, write the current resource map of the context through
tx.Update, fill the caller resource in place from that map, and fire the
post-update event. -/
def supdateMain (env : Env) (sch : SchemaModel) (storage : Storage)
    (r : RawResource) (c : Ctx) (triggerEvents : Bool) :
    List Act × Outcome RawResource :=
  let mapFromResource := resourceToMapEntries r
  let contextCopy := buildOpCtx c mapFromResource (resourceDataId mapFromResource) sch.id
  let pre :=
    if triggerEvents then handleEvent env "pre_update" contextCopy
    else ([], .done contextCopy none)
  match pre.2 with
  | .fatal m => (pre.1, .fatal m)
  | .done _ (some e) => (pre.1, .err e)
  | .done cc none =>
    match contextGetMapResource cc with
    | .fatal m => (pre.1, .fatal m)
    | .err e => (pre.1, .err e)
    | .ok mapFromContext =>
      let acts1 := pre.1 ++ [.storageUpdate mapFromContext]
      match storage.updateRes mapFromContext with
      | some e => (acts1, .err e)
      | none =>
        match resourceFillFromMap mapFromContext r with
        | .err e => (acts1, .err e)
        | .fatal m => (acts1, .fatal m)
        | .ok r2 =>
          if triggerEvents then
            let post := handleEvent env "post_update" cc
            match post.2 with
            | .fatal m => (acts1 ++ post.1, .fatal m)
            | .done _ (some e) => (acts1 ++ post.1, .err e)
            | .done _ none => (acts1 ++ post.1, .ok r2)
          else (acts1, .ok r2)

/-- Schema.update (UpdateRaw with events, DbUpdateRaw without). -/
def supdate (env : Env) (sch : SchemaModel) (storage : Storage)
    (arg : ResourceArg) (requestContext : Option Ctx) (triggerEvents : Bool) :
    List Act × Outcome RawResource :=
  if !(isPointerArg arg) then ([], .err errNotPointer)
  else
    match mustGetOpenTransactionFromContext requestContext with
    | .fatal m => ([], .fatal m)
    | .err e => ([], .err e)
    | .ok _ =>
      match arg with
      | .nonPtr => ([], .err errNotPointer)
      | .ptr r =>
        supdateMain env sch storage r (requestContext.getD []) triggerEvents

/-- The reflectx db mapper FieldByName on the id field of a fetched row,
asserted to a string: fatal when the resource has no id field or it is not
a string. -/
def getResourceIdString (r : RawResource) : Outcome String :=
  match alookup r "id" with
  | some (.fStr s) => .ok s
  | _ => .fatal "interface conversion: resource id is not a string"

/-- The per-row dispatch context of the delete loop: the shared context
copy with this row as the resource map, the schema ID and the id of this
row recorded. -/
def deleteRowCtx (sch : SchemaModel) (r : RawResource) (rid : String)
    (ctx : Ctx) : Ctx :=
  ctxSet (ctxSet (ctxSet ctx "resource" (resourceToMap r))
    "schema_id" (.vStr sch.id)) "resource_id" (.vStr rid)

/-- One iteration of the delete loop of Schema.delete: resolve the id of
the fetched row, put this row and its id (and the schema ID) into the
shared context copy, fire the pre-delete event when events are enabled,
delete the row by id through tx.Delete, and fire the post-delete event. The context as mutated is handed to the next
iteration. -/
def deleteRowStep (env : Env) (sch : SchemaModel) (storage : Storage)
    (triggerEvents : Bool) (r : RawResource) (ctx : Ctx) :
    List Act × Ctx × Outcome Unit :=
  match getResourceIdString r with
  | .fatal m => ([], ctx, .fatal m)
  | .err e => ([], ctx, .err e)
  | .ok rid =>
    let c1 := deleteRowCtx sch r rid ctx
    let pre :=
      if triggerEvents then handleEvent env "pre_delete" c1
      else ([], .done c1 none)
    match pre.2 with
    | .fatal m => (pre.1, c1, .fatal m)
    | .done c2 (some e) => (pre.1, c2, .err e)
    | .done c2 none =>
      let acts1 := pre.1 ++ [.storageDelete rid]
      match storage.deleteRes rid with
      | some e => (acts1, c2, .err e)
      | none =>
        if triggerEvents then
          let post := handleEvent env "post_delete" c2
          match post.2 with
          | .fatal m => (acts1 ++ post.1, c2, .fatal m)
          | .done c3 (some e) => (acts1 ++ post.1, c3, .err e)
          | .done c3 none => (acts1 ++ post.1, c3, .ok ())
        else (acts1, c2, .ok ())

/-- The row loop of Schema.delete over the fetched rows. -/
def deleteLoop (env : Env) (sch : SchemaModel) (storage : Storage)
    (triggerEvents : Bool) : List RawResource → Ctx → List Act × Outcome Unit
  | [], _ => ([], .ok ())
  | r :: rest, ctx =>
    let step := deleteRowStep env sch storage triggerEvents r ctx
    match step.2.2 with
    | .ok _ =>
      let rec2 := deleteLoop env sch storage triggerEvents rest step.2.1
      (step.1 ++ rec2.1, rec2.2)
    | .err e => (step.1, .err e)
    | .fatal m => (step.1, .fatal m)

/-- Schema.delete (DeleteRaw with events, DbDeleteRaw without): require an
open transaction, list every row matching the filter on a cloned context,
then run the per-row pre-dispatch, storage-delete, post-dispatch sequence
for each resolved row. -/
def sdelete (env : Env) (sch : SchemaModel) (storage : Storage)
    (filter : AttrMap) (requestContext : Option Ctx) (triggerEvents : Bool) :
    List Act × Outcome Unit :=
  match mustGetOpenTransactionFromContext requestContext with
  | .fatal m => ([], .fatal m)
  | .err e => ([], .err e)
  | .ok _ =>
    let contextCopy := requestContext.getD []
    match listRaw env sch storage filter (some contextCopy) with
    | (acts, .err e) => (acts, .err e)
    | (acts, .fatal m) => (acts, .fatal m)
    | (acts, .ok rows) =>
      let loop := deleteLoop env sch storage triggerEvents rows contextCopy
      (acts ++ loop.1, loop.2)

/- ===================== Spec-side predicates and concrete fixtures ===================== -/

/-- Success of a dispatch: a done result without error. -/
def DispatchOut.isOkB : DispatchOut → Bool
  | .done _ none => true
  | _ => false

/-- A generic value matches a declared property type when assigning it to
a field of that type neither panics nor changes representation: the exact
scalar of a scalar type, and the exact scalar or null for a nullable
wrapper type. -/
def valMatches : FieldType → Value → Bool
  | .tStr, .vStr _ => true
  | .tInt, .vInt _ => true
  | .tFloat, .vFloat _ => true
  | .tBool, .vBool _ => true
  | .tNullStr, .vStr _ => true
  | .tNullStr, .vNull => true
  | .tNullInt, .vInt _ => true
  | .tNullInt, .vNull => true
  | .tNullFloat, .vFloat _ => true
  | .tNullFloat, .vNull => true
  | .tNullBool, .vBool _ => true
  | .tNullBool, .vNull => true
  | _, _ => false

/-- The serialization of the zero value of a field type: the zero scalar
for scalar types and null (an invalid wrapper) for nullable types. -/
def zeroValue : FieldType → Value
  | .tStr => .vStr ""
  | .tInt => .vInt 0
  | .tFloat => .vFloat 0
  | .tBool => .vBool false
  | _ => .vNull

/-- True on a tx.Delete action. -/
def isDeleteAct : Act → Bool
  | .storageDelete _ => true
  | _ => false

/-- True on the start of a dispatch of the given event. -/
def isDispatchStartOf (ev : String) : Act → Bool
  | .dispatchStart e _ => e = ev
  | _ => false

/-- True on a handler invocation action. -/
def Act.isInvokeB : Act → Bool
  | .invoke _ => true
  | _ => false

/-- A generic handler that succeeds without touching the context. -/
def ghOk : GHandler := fun c => (c, none)

/-- A generic handler that fails with the error boom. -/
def ghBoom : GHandler := fun c => (c, some (.msg "boom"))

/-- An environment with nothing registered. -/
def envEmpty : Env :=
  { name := "test"
    traceID := "trace0"
    initFns := []
    handlerKeys := fun _ => []
    handlers := fun _ _ => []
    schemaHandlerSchemas := fun _ => []
    schemaHandlerKeys := fun _ _ => []
    schemaHandlers := fun _ _ _ => []
    rawTypes := fun _ => none
    types := fun _ => none
    schemas := fun _ => none }

/-- A context holding an open transaction. -/
def ctxOpen : Ctx := [("transaction", .vTx false)]

/-- A raw type with two string properties and one nullable integer. -/
def typeNet : RawType :=
  ⟨[⟨"id", .tStr⟩, ⟨"name", .tStr⟩, ⟨"val", .tNullInt⟩]⟩

/-- The schema of typeNet. -/
def schNet : SchemaModel := ⟨"net", ["id", "name", "val"]⟩

/-- An attribute map whose keys are exactly the tags of typeNet. -/
def mNet : AttrMap := [("id", .vStr "42"), ("name", .vStr "eth0"), ("val", .vNull)]

/-- An environment knowing the raw type of schNet. -/
def envNet : Env :=
  { envEmpty with
    rawTypes := fun s => if s = "net" then some typeNet else none
    schemas := fun s => if s = "net" then some schNet else none }

/-- A resource of one string id field. -/
def rWitness : RawResource := [("id", .fStr "42")]

/-- A resource whose id field is not a string. -/
def rNoStringId : RawResource := [("id", .fInt 7)]

/-- An environment with one failing generic pre-create handler at
priority 2. -/
def envPreCreateFail : Env :=
  registerEventHandler envEmpty "pre_create" (5, ghBoom) 2

/-- A storage whose operations all succeed and return nothing. -/
def storageOk : Storage :=
  { listRes := fun _ => .ok []
    fetchRes := fun _ => .ok []
    lockFetchRes := fun _ => .ok []
    createRes := fun _ => none
    updateRes := fun _ => none
    deleteRes := fun _ => none
    countRes := fun _ => .ok 0 }

/-- A storage whose fetch paths report the storage not-found signal. -/
def storageNotFound : Storage :=
  { storageOk with
    fetchRes := fun _ => .error .txResourceNotFound
    lockFetchRes := fun _ => .error .txResourceNotFound }

/-- A raw type of a single string id field. -/
def typeIdOnly : RawType := ⟨[⟨"id", .tStr⟩]⟩

/-- An environment knowing typeIdOnly for the schema net. -/
def envIdOnly : Env :=
  { envEmpty with
    rawTypes := fun s => if s = "net" then some typeIdOnly else none
    schemas := fun s => if s = "net" then some (SchemaModel.mk "net" ["id"]) else none }

/-- Three rows matching a delete filter. -/
def rowsThree : List AttrMap :=
  [[("id", .vStr "r1")], [("id", .vStr "r2")], [("id", .vStr "r3")]]

/-- A storage that lists the three rows for every filter. -/
def storageThreeRows : Storage :=
  { storageOk with listRes := fun _ => .ok rowsThree }

/-- Shared generic buckets of the two permutation-test environments: one
handler at priority 1 and one at priority 2 under the event ev. -/
def bucketsPerm : String → Int → List (Nat × GHandler) := fun e p =>
  if e = "ev" then
    if p = 1 then [(1, ghOk)] else if p = 2 then [(0, ghOk)] else []
  else []

/-- An environment whose priority map under ev yields its keys as 2, 1. -/
def envPermA : Env :=
  { envEmpty with
    handlerKeys := fun e => if e = "ev" then [2, 1] else []
    handlers := bucketsPerm }

/-- The same environment with the keys enumerated as 1, 2. -/
def envPermB : Env :=
  { envEmpty with
    handlerKeys := fun e => if e = "ev" then [1, 2] else []
    handlers := bucketsPerm }

/-- A context naming the schema net. -/
def ctxSchemaNet : Ctx := [("schema_id", .vStr "net")]

/-- An environment with exactly one generic handler under the event ev at
priority 1. -/
def envOneHandler : Env := registerEventHandler envEmpty "ev" (0, ghOk) 1

/-- An environment with a failing generic pre-create handler at priority 2
and a succeeding one at priority 3. -/
def envPreCreateFailTwo : Env :=
  registerEventHandler (registerEventHandler envEmpty "pre_create" (5, ghBoom) 2)
    "pre_create" (9, ghOk) 3

/-- The context a dispatch left behind (the empty context for a fatal
stop, which never hands a context back). -/
def DispatchOut.ctxOf : DispatchOut → Ctx
  | .done c _ => c
  | .fatal _ => []

/-- The schema of typeIdOnly. -/
def schIdOnly : SchemaModel := ⟨"net", ["id"]⟩

/-- The three rows of rowsThree as decoded raw resources. -/
def rowsResW : List RawResource :=
  [[("id", .fStr "r1")], [("id", .fStr "r2")], [("id", .fStr "r3")]]

/- ===================== Theorems ===================== -/

/-- A key outside the key list of an association list has no binding. -/
theorem alookup_eq_none_of_not_mem {α : Type} (l : List (String × α))
    (k : String) (h : k ∉ l.map Prod.fst) : alookup l k = none := by
  induction l with
  | nil => rfl
  | cons p rest ih =>
    simp only [List.map_cons, List.mem_cons] at h
    push_neg at h
    simp only [alookup]
    rw [if_neg (fun hk => h.1 hk.symm)]
    exact ih h.2

/-- Filtering a map filters its key list. -/
theorem removeHiddenKeysFromMap_keys (f : FilterStrategy) (m : AttrMap) :
    (removeHiddenKeysFromMap f m).map Prod.fst
      = (m.map Prod.fst).filter (fun k => !(isForbidden f k)) := by
  induction m with
  | nil => rfl
  | cons p rest ih =>
    simp only [removeHiddenKeysFromMap, List.filter_cons, List.map_cons,
      isForbidden, Bool.not_not] at *
    cases hp : f.filterKey p.1 <;> simp [hp, ih]

/-- Lookup in the filtered map: none on forbidden keys, unchanged
otherwise. -/
theorem removeHiddenKeysFromMap_lookup (f : FilterStrategy) (m : AttrMap)
    (k : String) :
    alookup (removeHiddenKeysFromMap f m) k
      = if isForbidden f k then none else alookup m k := by
  induction m with
  | nil => cases h : isForbidden f k <;> simp [removeHiddenKeysFromMap, alookup, h]
  | cons p rest ih =>
    simp only [removeHiddenKeysFromMap, List.filter_cons] at *
    by_cases hpk : p.1 = k
    · subst hpk
      cases hp : f.filterKey p.1 <;>
        simp [alookup, hp, isForbidden, ih, removeHiddenKeysFromMap]
    · cases hp : f.filterKey p.1 <;>
        simp [alookup, hpk, hp, ih, removeHiddenKeysFromMap]

/-- Claim C9: for every constructed filter strategy,
RemoveHiddenKeysFromMap keeps exactly the entries whose key IsForbidden
rejects as forbidden is false, with unchanged values (the result is a new
map and the embedding is pure, so the input is untouched by
construction), and RemoveHiddenKeysFromSlice agrees with IsForbidden and
preserves the order of the kept keys. -/
theorem c9_property_filter :
    (∀ (f : FilterStrategy) (m : AttrMap),
      (removeHiddenKeysFromMap f m).map Prod.fst
        = (m.map Prod.fst).filter (fun k => !(isForbidden f k))
      ∧ ∀ k, alookup (removeHiddenKeysFromMap f m) k
          = if isForbidden f k then none else alookup m k)
    ∧ ∀ (f : FilterStrategy) (data : List String),
      removeHiddenKeysFromSlice f data
        = data.filter (fun k => !(isForbidden f k)) := by
  refine ⟨fun f m => ⟨removeHiddenKeysFromMap_keys f m,
    fun k => removeHiddenKeysFromMap_lookup f m k⟩, fun f data => ?_⟩
  simp only [removeHiddenKeysFromSlice, isForbidden, Bool.not_not]

/-- Without an open transaction the guard is fatal. -/
theorem mustGet_fatal_of_not_open (ctx? : Option Ctx)
    (h : hasOpenTransaction ctx? = false) :
    mustGetOpenTransactionFromContext ctx?
      = .fatal "Database function called without open transaction" := by
  cases ctx? with
  | none => rfl
  | some c =>
    simp only [hasOpenTransaction] at h
    simp only [mustGetOpenTransactionFromContext]
    cases hc : contextGetTransaction c with
    | none => rfl
    | some closed =>
      rw [hc] at h
      simp only [Bool.not_eq_false'] at h
      simp [h]

/-- With an open transaction the guard returns it. -/
theorem mustGet_ok_of_open (ctx? : Option Ctx)
    (h : hasOpenTransaction ctx? = true) :
    mustGetOpenTransactionFromContext ctx? = .ok false := by
  cases ctx? with
  | none => simp [hasOpenTransaction] at h
  | some c =>
    simp only [hasOpenTransaction] at h
    simp only [mustGetOpenTransactionFromContext]
    cases hc : contextGetTransaction c with
    | none => rw [hc] at h; simp at h
    | some closed =>
      rw [hc] at h
      simp only [Bool.not_eq_true'] at h
      simp [h]

/-- Claim C6: every operation that requires a transaction stops fatally (a
panic, not an error return) when the request context is nil, holds no
transaction, or holds a closed one, and under the precondition of an open
transaction the fatal branch is unreachable (the guard returns the open
transaction). -/
theorem c6_transaction_guard :
    (∀ ctx?, (mustGetOpenTransactionFromContext ctx?).isFatalB
        = !(hasOpenTransaction ctx?))
  ∧ (∀ ctx?, hasOpenTransaction ctx? = true →
      mustGetOpenTransactionFromContext ctx? = .ok false)
  ∧ (∀ storage filter ctx?, hasOpenTransaction ctx? = false →
      scount storage filter ctx?
        = ([], .fatal "Database function called without open transaction"))
  ∧ (∀ env sch storage filter ctx? trig, hasOpenTransaction ctx? = false →
      sdelete env sch storage filter ctx? trig
        = ([], .fatal "Database function called without open transaction")
      ∧ listRaw env sch storage filter ctx?
        = ([], .fatal "Database function called without open transaction"))
  ∧ (∀ env sch storage r ctx? trig, hasOpenTransaction ctx? = false →
      screate env sch storage (.ptr r) ctx? trig
        = ([], .fatal "Database function called without open transaction")
      ∧ supdate env sch storage (.ptr r) ctx? trig
        = ([], .fatal "Database function called without open transaction"))
  ∧ (∀ env sch fetch filter ctx?, hasOpenTransaction ctx? = false →
      fetchImplFilter env sch fetch filter ctx?
        = ([], .fatal "Database function called without open transaction")) := by
  refine ⟨fun ctx? => ?_, fun ctx? h => mustGet_ok_of_open ctx? h,
    fun storage filter ctx? h => ?_, fun env sch storage filter ctx? trig h => ⟨?_, ?_⟩,
    fun env sch storage r ctx? trig h => ⟨?_, ?_⟩, fun env sch fetch filter ctx? h => ?_⟩
  · cases hop : hasOpenTransaction ctx? with
    | true => rw [mustGet_ok_of_open ctx? hop]; rfl
    | false => rw [mustGet_fatal_of_not_open ctx? hop]; rfl
  · simp [scount, mustGet_fatal_of_not_open ctx? h]
  · simp [sdelete, mustGet_fatal_of_not_open ctx? h]
  · simp [listRaw, mustGet_fatal_of_not_open ctx? h]
  · simp [screate, isPointerArg, mustGet_fatal_of_not_open ctx? h]
  · simp [supdate, isPointerArg, mustGet_fatal_of_not_open ctx? h]
  · simp [fetchImplFilter, mustGet_fatal_of_not_open ctx? h]

/-- Witness for C6 at concrete inputs: an open transaction passes the
guard; a closed transaction makes Count stop fatally. -/
theorem c6_transaction_guard_witness :
    mustGetOpenTransactionFromContext (some ctxOpen) = .ok false
    ∧ scount storageOk [] (some [("transaction", .vTx true)])
      = ([], .fatal "Database function called without open transaction") :=
  ⟨c6_transaction_guard.2.1 (some ctxOpen) rfl,
   c6_transaction_guard.2.2.1 storageOk [] (some [("transaction", .vTx true)]) rfl⟩

/-- Claim C5: a Fetch or LockFetch (by id or by filter) whose storage
fetch reports the storage not-found signal returns the distinguished
extension-facing ErrResourceNotFound, and every other storage error is
returned unchanged; all four variants delegate to fetchImplFilter. -/
theorem c5_fetch_not_found :
    (∀ env sch fetch filter ctx?, hasOpenTransaction ctx? = true →
      fetch filter = .error .txResourceNotFound →
      fetchImplFilter env sch fetch filter ctx?
        = ([.storageFetch filter], .err .resourceNotFound))
  ∧ (∀ env sch fetch filter ctx? e, hasOpenTransaction ctx? = true →
      fetch filter = .error e → e ≠ .txResourceNotFound →
      fetchImplFilter env sch fetch filter ctx?
        = ([.storageFetch filter], .err e))
  ∧ (∀ env sch storage id ctx?, fetchRaw env sch storage id ctx?
      = fetchImplFilter env sch storage.fetchRes (idFilter id) ctx?)
  ∧ (∀ env sch storage id ctx?, lockFetchRaw env sch storage id ctx?
      = fetchImplFilter env sch storage.lockFetchRes (idFilter id) ctx?)
  ∧ (∀ env sch storage filter ctx?, fetchFilterRaw env sch storage filter ctx?
      = fetchImplFilter env sch storage.fetchRes filter ctx?)
  ∧ (∀ env sch storage filter ctx?,
      lockFetchFilterRaw env sch storage filter ctx?
        = fetchImplFilter env sch storage.lockFetchRes filter ctx?) := by
  refine ⟨fun env sch fetch filter ctx? hop hf => ?_,
    fun env sch fetch filter ctx? e hop hf hne => ?_,
    fun _ _ _ _ _ => rfl, fun _ _ _ _ _ => rfl,
    fun _ _ _ _ _ => rfl, fun _ _ _ _ _ => rfl⟩
  · simp [fetchImplFilter, mustGet_ok_of_open ctx? hop, hf]
  · simp [fetchImplFilter, mustGet_ok_of_open ctx? hop, hf, hne]

/-- Witness for C5 at concrete inputs: a not-found fetch maps to the
distinguished error and another error passes through unchanged. -/
theorem c5_fetch_not_found_witness :
    fetchImplFilter envEmpty schNet storageNotFound.fetchRes [] (some ctxOpen)
      = ([.storageFetch []], .err .resourceNotFound)
    ∧ fetchImplFilter envEmpty schNet (fun _ => .error (.msg "disk failure"))
        [] (some ctxOpen)
      = ([.storageFetch []], .err (.msg "disk failure")) :=
  ⟨c5_fetch_not_found.1 envEmpty schNet storageNotFound.fetchRes [] (some ctxOpen)
      rfl rfl,
   c5_fetch_not_found.2.1 envEmpty schNet (fun _ => .error (.msg "disk failure"))
      [] (some ctxOpen) (.msg "disk failure") rfl rfl (by decide)⟩

/-- Claim C7 counterexample: passing a non-pointer resource to create or
update returns the ErrNotPointer error value to the caller; it is not a
fatal stop, refuting the claim that execution stops fatally rather than
returning an error value. -/
theorem c7_nonpointer_counterexample :
    (screate envEmpty schNet storageOk .nonPtr (some ctxOpen) true).2
      = .err errNotPointer
  ∧ (screate envEmpty schNet storageOk .nonPtr (some ctxOpen) true).2.isFatalB
      = false
  ∧ (supdate envEmpty schNet storageOk .nonPtr (some ctxOpen) true).2
      = .err errNotPointer
  ∧ (supdate envEmpty schNet storageOk .nonPtr (some ctxOpen) true).2.isFatalB
      = false :=
  ⟨rfl, rfl, rfl, rfl⟩

/-- Claim C7 amended: for every create and update, a non-pointer resource
makes the operation return the distinguished ErrNotPointer error value
(before the transaction guard and before any dispatch or storage action),
rather than stopping fatally. -/
theorem c7_nonpointer_amended :
    ∀ env sch storage ctx? trig,
      screate env sch storage .nonPtr ctx? trig = ([], .err errNotPointer)
      ∧ supdate env sch storage .nonPtr ctx? trig = ([], .err errNotPointer) :=
  fun _ _ _ _ _ => ⟨rfl, rfl⟩

/-- A fatal id assertion is the fixed interface-conversion stop. -/
theorem assertIdString_fatal (m : AttrMap)
    (h : (assertIdString m).isFatalB = true) :
    assertIdString m = .fatal "interface conversion: interface is not a string" := by
  unfold assertIdString at *
  cases hl : alookup m "id" with
  | none => rfl
  | some v => cases v <;> simp_all [Outcome.isFatalB]

/-- Claim C10: create requires the marshaled resource map to bind id to a
string: otherwise it stops fatally with an empty trace (before any event
dispatch or storage write); when the id is a string this branch is passed
and create proceeds with the remainder of the operation. -/
theorem c10_create_id_assertion :
    (∀ env sch storage r ctx? trig, hasOpenTransaction ctx? = true →
      (assertIdString (resourceToMapEntries r)).isFatalB = true →
      screate env sch storage (.ptr r) ctx? trig
        = ([], .fatal "interface conversion: interface is not a string"))
  ∧ (∀ env sch storage r ctx? trig rid, hasOpenTransaction ctx? = true →
      assertIdString (resourceToMapEntries r) = .ok rid →
      screate env sch storage (.ptr r) ctx? trig
        = screateMain env sch storage r rid (ctx?.getD []) trig) := by
  constructor
  · intro env sch storage r ctx? trig hop hid
    simp [screate, isPointerArg, mustGet_ok_of_open ctx? hop,
      assertIdString_fatal _ hid]
  · intro env sch storage r ctx? trig rid hop hid
    simp [screate, isPointerArg, mustGet_ok_of_open ctx? hop, hid]

/-- Witness for C10 at concrete inputs: a resource with an integer id
stops fatally with an empty trace, one with a string id proceeds. -/
theorem c10_create_id_assertion_witness :
    screate envEmpty schNet storageOk (.ptr rNoStringId) (some ctxOpen) true
      = ([], .fatal "interface conversion: interface is not a string")
    ∧ screate envEmpty schNet storageOk (.ptr rWitness) (some ctxOpen) true
      = screateMain envEmpty schNet storageOk rWitness "42"
          ((some ctxOpen).getD []) true :=
  ⟨c10_create_id_assertion.1 envEmpty schNet storageOk rNoStringId
      (some ctxOpen) true rfl rfl,
   c10_create_id_assertion.2 envEmpty schNet storageOk rWitness
      (some ctxOpen) true "42" rfl rfl⟩

/-- Claim C8 counterexample: an environment with one registered generic
handler under the event ev; its clone has an empty handler registry and a
dispatch of ev on the clone invokes no handler, while the original invokes
it — refuting the claim that the clone shares the handler registries and
needs no re-registration for dispatch to see the original handlers. -/
theorem c8_clone_counterexample :
    envOneHandler.handlerKeys "ev" = [1]
  ∧ (cloneEnv envOneHandler "trace1").handlerKeys "ev" = []
  ∧ invokedIds (handleEvent envOneHandler "ev" []).1 = [0]
  ∧ invokedIds (handleEvent (cloneEnv envOneHandler "trace1") "ev" []).1 = []
  ∧ ([1] : List Int) ≠ [] :=
  ⟨rfl, rfl, rfl, rfl, by decide⟩

/-- Claim C8 amended: Clone copies the name, the loaded init functions and
the raw and full type registries, and installs the freshly generated trace
identifier (hence a trace identifier differing from the original whenever
the generated one differs), but the generic and schema handler registries
are not copied: the clone starts with empty handler registries, so
handlers must be registered again (for example by re-running the init
functions) before dispatch on the clone sees them. -/
theorem c8_clone_amended :
    ∀ (env : Env) (fresh : String),
      (cloneEnv env fresh).rawTypes = env.rawTypes
    ∧ (cloneEnv env fresh).types = env.types
    ∧ (cloneEnv env fresh).initFns = env.initFns
    ∧ (cloneEnv env fresh).name = env.name
    ∧ (cloneEnv env fresh).schemas = env.schemas
    ∧ (cloneEnv env fresh).traceID = fresh
    ∧ (fresh ≠ env.traceID → (cloneEnv env fresh).traceID ≠ env.traceID)
    ∧ (cloneEnv env fresh).handlerKeys = (fun _ => [])
    ∧ (cloneEnv env fresh).handlers = (fun _ _ => [])
    ∧ (cloneEnv env fresh).schemaHandlerSchemas = (fun _ => [])
    ∧ (cloneEnv env fresh).schemaHandlerKeys = (fun _ _ => [])
    ∧ (cloneEnv env fresh).schemaHandlers = (fun _ _ _ => []) :=
  fun env fresh =>
    ⟨rfl, rfl, rfl, rfl, rfl, rfl, fun h => h, rfl, rfl, rfl, rfl, rfl⟩

/-- Witness for C8 amended at a concrete input: the clone of the
one-handler environment under a fresh trace identifier. -/
theorem c8_clone_amended_witness :
    (cloneEnv envOneHandler "trace1").traceID = "trace1"
    ∧ (cloneEnv envOneHandler "trace1").traceID ≠ envOneHandler.traceID :=
  ⟨(c8_clone_amended envOneHandler "trace1").2.2.2.2.2.1,
   (c8_clone_amended envOneHandler "trace1").2.2.2.2.2.2.1 (by decide)⟩

/-- Decoding one field of a matching map recovers a field value that
serializes back to the original map value. -/
theorem decodeField_roundtrip (props : List String) (m : AttrMap)
    (fd : FieldDesc) (v : Value) (h1 : fd.tag ≠ "") (h2 : fd.tag ∈ props)
    (h3 : alookup m fd.tag = some v) (h4 : valMatches fd.ftype v = true) :
    ∃ w, decodeField props m fd = .ok w ∧ fieldToValue w = v := by
  have hcontains : props.contains fd.tag = true := by simpa using h2
  cases hft : fd.ftype <;> cases v <;>
    simp_all [decodeField, valMatches, jsonDecodeNull, decodeScalarInto,
      fieldToValue, zeroFieldVal]

/-- The field loop of fromMap on a matching map succeeds and the resulting
resource serializes to the restriction of the map to the field tags. -/
theorem resourceFromMapCore_roundtrip (props : List String) (m : AttrMap) :
    ∀ fields : List FieldDesc,
    (∀ fd ∈ fields, fd.tag ≠ "" ∧ fd.tag ∈ props ∧
      ∃ v, alookup m fd.tag = some v ∧ valMatches fd.ftype v = true) →
    ∃ r, resourceFromMapCore props m fields = .ok r ∧
      ∀ k, alookup (resourceToMapEntries r) k
        = if k ∈ fields.map FieldDesc.tag then alookup m k else none := by
  intro fields
  induction fields with
  | nil =>
    intro _
    exact ⟨[], rfl, fun k => by simp [resourceToMapEntries, alookup]⟩
  | cons fd rest ih =>
    intro h
    obtain ⟨h1, h2, v, h3, h4⟩ := h fd (by simp)
    obtain ⟨w, hw, hwv⟩ := decodeField_roundtrip props m fd v h1 h2 h3 h4
    obtain ⟨r, hr, hlook⟩ := ih (fun fd' hfd' => h fd' (by simp [hfd']))
    refine ⟨(fd.tag, w) :: r, ?_, ?_⟩
    · simp [resourceFromMapCore, hw, hr]
    · intro k
      by_cases hk : fd.tag = k
      · subst hk
        simp [resourceToMapEntries, alookup, hwv, h3]
      · have hne : ¬(k = fd.tag) := fun hh => hk hh.symm
        simp only [resourceToMapEntries, List.map_cons, alookup, List.mem_cons]
        rw [if_neg hk]
        rw [show alookup (List.map (fun f => (f.1, fieldToValue f.2)) r) k
            = alookup (resourceToMapEntries r) k from rfl, hlook k]
        simp [hne]

/-- Claim C3: for a map whose keys exactly match the db tags of the
registered raw type and whose values match the declared property types,
fromMap (resourceFromContext) succeeds and toMap (resourceToMap) of the
result is the same map again (equal as maps, i.e. under every lookup);
and a field whose key is absent from the source map stays at the zero
value of its type and re-serializes as that zero value. -/
theorem c3_marshal_roundtrip :
    (∀ (env : Env) (sch : SchemaModel) (T : RawType) (ctx : Ctx) (m : AttrMap),
      env.rawTypes sch.id = some T →
      ctxGet ctx "resource" = some (.vMap m) →
      (∀ fd ∈ T.fields, fd.tag ≠ "" ∧ fd.tag ∈ sch.props ∧
        ∃ v, alookup m fd.tag = some v ∧ valMatches fd.ftype v = true) →
      (∀ k ∈ m.map Prod.fst, k ∈ T.fields.map FieldDesc.tag) →
      ∃ r, resourceFromContext env sch ctx = .ok r ∧
        ∀ k, alookup (resourceToMapEntries r) k = alookup m k)
  ∧ (∀ (props : List String) (m : AttrMap) (fd : FieldDesc),
      fd.tag ≠ "" → fd.tag ∈ props → alookup m fd.tag = none →
      decodeField props m fd = .ok (zeroFieldVal fd.ftype)
      ∧ fieldToValue (zeroFieldVal fd.ftype) = zeroValue fd.ftype) := by
  constructor
  · intro env sch T ctx m hT hres hfields hkeys
    obtain ⟨r, hr, hlook⟩ := resourceFromMapCore_roundtrip sch.props m T.fields hfields
    refine ⟨r, ?_, ?_⟩
    · simp [resourceFromContext, hT]
      rw [show ctxGet ctx "resource" = some (.vMap m) from hres]
      exact hr
    · intro k
      rw [hlook k]
      by_cases hk : k ∈ T.fields.map FieldDesc.tag
      · simp [hk]
      · have hnone : alookup m k = none :=
          alookup_eq_none_of_not_mem m k (fun hm => hk (hkeys k hm))
        rw [if_neg hk, hnone]
  · intro props m fd h1 h2 h3
    have hcontains : props.contains fd.tag = true := by simpa using h2
    constructor
    · cases hft : fd.ftype <;>
        simp_all [decodeField, jsonDecodeNull, decodeScalarInto, zeroFieldVal]
    · cases hft : fd.ftype <;> simp [zeroFieldVal, fieldToValue, zeroValue]

/-- Witness for C3 at concrete inputs: the net map round-trips through the
net raw type, and an absent nullable key materializes as the invalid
wrapper and re-serializes as null. -/
theorem c3_marshal_roundtrip_witness :
    (∃ r, resourceFromContext envNet schNet [("resource", .vMap mNet)] = .ok r
      ∧ ∀ k, alookup (resourceToMapEntries r) k = alookup mNet k)
    ∧ (decodeField schNet.props [] ⟨"val", .tNullInt⟩
        = .ok (zeroFieldVal .tNullInt)
      ∧ fieldToValue (zeroFieldVal .tNullInt) = zeroValue .tNullInt) := by
  constructor
  · refine c3_marshal_roundtrip.1 envNet schNet typeNet
      [("resource", .vMap mNet)] mNet rfl rfl ?_ (by decide)
    intro fd hfd
    simp [typeNet] at hfd
    rcases hfd with h | h | h
    · subst h; exact ⟨by decide, by decide, .vStr "42", rfl, rfl⟩
    · subst h; exact ⟨by decide, by decide, .vStr "eth0", rfl, rfl⟩
    · subst h; exact ⟨by decide, by decide, .vNull, rfl, rfl⟩
  · exact c3_marshal_roundtrip.2 schNet.props [] ⟨"val", .tNullInt⟩
      (by decide) (by decide) rfl

/-- Setting one key leaves the binding of a different key unchanged. -/
theorem ctxGet_ctxSet_ne (ctx : Ctx) (k k' : String) (v : Value)
    (h : k' ≠ k) : ctxGet (ctxSet ctx k' v) k = ctxGet ctx k := by
  induction ctx with
  | nil => simp [ctxSet, ctxGet, alookup, h]
  | cons p rest ih =>
    by_cases hp : p.1 = k'
    · simp only [ctxSet, if_pos hp, ctxGet, alookup]
      rw [if_neg h, if_neg (fun hh => h (hp ▸ hh))]
    · simp only [ctxSet, if_neg hp, ctxGet, alookup] at *
      by_cases hpk : p.1 = k
      · rw [if_pos hpk, if_pos hpk]
      · rw [if_neg hpk, if_neg hpk]
        exact ih

/-- Setting a key binds it. -/
theorem ctxGet_ctxSet_same (ctx : Ctx) (k : String) (v : Value) :
    ctxGet (ctxSet ctx k v) k = some v := by
  induction ctx with
  | nil => simp [ctxSet, ctxGet, alookup]
  | cons p rest ih =>
    by_cases hp : p.1 = k
    · simp [ctxSet, hp, ctxGet, alookup]
    · simp only [ctxSet, if_neg hp, ctxGet, alookup]
      exact ih

/-- The insertion sort of sort.Ints is sorted ascending. -/
theorem sortInts_sorted (l : List Int) : (sortInts l).Sorted (· ≤ ·) :=
  List.sorted_insertionSort _ l

/-- The insertion sort of sort.Ints permutes its input. -/
theorem sortInts_perm (l : List Int) : List.Perm (sortInts l) l :=
  List.perm_insertionSort _ l

/-- Sorting two enumerations of the same key set gives the same list: the
sorted order is independent of the enumeration order. -/
theorem sortInts_eq_of_perm (l₁ l₂ : List Int) (h : List.Perm l₁ l₂) :
    sortInts l₁ = sortInts l₂ :=
  List.eq_of_perm_of_sorted
    ((sortInts_perm l₁).trans (h.trans (sortInts_perm l₂).symm))
    (sortInts_sorted l₁) (sortInts_sorted l₂)

/-- Permutations preserve emptiness. -/
theorem perm_eq_nil_iff {α : Type} {l₁ l₂ : List α} (h : List.Perm l₁ l₂) :
    (l₁ = []) ↔ (l₂ = []) := by
  constructor
  · intro hh; subst hh; exact h.symm.eq_nil
  · intro hh; subst hh; exact h.eq_nil

/-- Invoked identities distribute over trace concatenation. -/
theorem invokedIds_append (a b : List Act) :
    invokedIds (a ++ b) = invokedIds a ++ invokedIds b := by
  simp [invokedIds, List.filterMap_append]

/-- An invocation at the head of a trace is recorded first. -/
theorem invokedIds_invoke_cons (hid : Nat) (t : List Act) :
    invokedIds (.invoke hid :: t) = hid :: invokedIds t := by
  simp [invokedIds, Act.invokeId]

/-- A dispatch start is not an invocation. -/
theorem invokedIds_start_cons (ev : String) (c : Ctx) (t : List Act) :
    invokedIds (.dispatchStart ev c :: t) = invokedIds t := by
  simp [invokedIds, Act.invokeId]

/-- A prefix of the first summand is a prefix of the concatenation. -/
theorem exists_take_left {α : Type} {l₁ ids : List α} (l₂ : List α)
    (h : ∃ k ≤ l₁.length, ids = l₁.take k) :
    ∃ k ≤ (l₁ ++ l₂).length, ids = (l₁ ++ l₂).take k := by
  obtain ⟨k, hk, hids⟩ := h
  refine ⟨k, by simp; omega, ?_⟩
  rw [hids, List.take_append_of_le_length hk]

/-- The first summand followed by a prefix of the second is a prefix of
the concatenation. -/
theorem exists_take_right {α : Type} (l₁ : List α) {l₂ ids : List α}
    (h : ∃ k ≤ l₂.length, ids = l₂.take k) :
    ∃ k ≤ (l₁ ++ l₂).length, l₁ ++ ids = (l₁ ++ l₂).take k := by
  obtain ⟨k, hk, hids⟩ := h
  refine ⟨l₁.length + k, by simp; omega, ?_⟩
  rw [hids, List.take_append]

/-- Every action of a schema bucket run is a handler invocation. -/
theorem runSchemaBucket_all_invoke (hs : List (Nat × SHandler)) :
    ∀ ctx res, (runSchemaBucket hs ctx res).1.all Act.isInvokeB = true := by
  induction hs with
  | nil => intro ctx res; rfl
  | cons p rest ih =>
    intro ctx res
    obtain ⟨hid, h⟩ := p
    simp only [runSchemaBucket]
    cases hout : (h (ctxSet ctx "go_validation" (.vBool true)) res).2.2 with
    | some e => simp [Act.isInvokeB]
    | none =>
      simp only [List.all_cons, Act.isInvokeB, Bool.true_and]
      exact ih _ _

/-- Every action of the schema priority loop is a handler invocation. -/
theorem runSchemaPrios_all_invoke (buckets : Int → List (Nat × SHandler))
    (ks : List Int) :
    ∀ ctx res, (runSchemaPrios buckets ks ctx res).1.all Act.isInvokeB = true := by
  induction ks with
  | nil => intro _ _; rfl
  | cons p ps ih =>
    intro ctx res
    simp only [runSchemaPrios]
    cases hstep : (runSchemaBucket (buckets p) ctx res).2.2.2 with
    | some e => exact runSchemaBucket_all_invoke _ _ _
    | none =>
      simp only [List.all_append]
      rw [runSchemaBucket_all_invoke _ _ _, ih _ _]
      rfl

/-- Every action of a schema dispatch is a handler invocation. -/
theorem dispatchSchemaEvent_all_invoke (env : Env) (sch : SchemaModel)
    (keys : List Int) (buckets : Int → List (Nat × SHandler)) (event : String)
    (ctx : Ctx) :
    (dispatchSchemaEvent env sch keys buckets event ctx).1.all Act.isInvokeB
      = true := by
  simp only [dispatchSchemaEvent]
  cases resourceFromContext env sch ctx with
  | fatal m => rfl
  | err e => rfl
  | ok res => exact runSchemaPrios_all_invoke _ _ _ _

/-- Every action of the broadcast pass is a handler invocation. -/
theorem broadcastSchemas_all_invoke (env : Env) (event : String)
    (sids : List String) :
    ∀ ctx, (broadcastSchemas env event sids ctx).1.all Act.isInvokeB = true := by
  induction sids with
  | nil => intro _; rfl
  | cons sid rest ih =>
    intro ctx
    cases hsch : env.schemas sid with
    | none => simp [broadcastSchemas, hsch]
    | some sch =>
      simp only [broadcastSchemas, hsch]
      cases hstep : (dispatchSchemaEvent env sch (env.schemaHandlerKeys event sid)
          (env.schemaHandlers event sid) event ctx).2 with
      | fatal m => exact dispatchSchemaEvent_all_invoke _ _ _ _ _ _
      | done c e =>
        cases e with
        | some e0 => exact dispatchSchemaEvent_all_invoke _ _ _ _ _ _
        | none =>
          simp only [List.all_append]
          rw [dispatchSchemaEvent_all_invoke, ih _]
          rfl

/-- Every action of a generic bucket run is a handler invocation. -/
theorem runGenericBucket_all_invoke (event : String) (p : Int)
    (hs : List (Nat × GHandler)) :
    ∀ idx ctx, (runGenericBucket event p hs idx ctx).1.all Act.isInvokeB
      = true := by
  induction hs with
  | nil => intro _ _; rfl
  | cons q rest ih =>
    intro idx ctx
    obtain ⟨hid, h⟩ := q
    simp only [runGenericBucket]
    cases hout : (h ctx).2 with
    | some e => simp [Act.isInvokeB]
    | none =>
      simp only [List.all_cons, Act.isInvokeB, Bool.true_and]
      exact ih _ _

/-- Every action of the generic priority loop is a handler invocation. -/
theorem runGenericPrios_all_invoke (event : String)
    (buckets : Int → List (Nat × GHandler)) (ks : List Int) :
    ∀ ctx, (runGenericPrios event buckets ks ctx).1.all Act.isInvokeB
      = true := by
  induction ks with
  | nil => intro _; rfl
  | cons p ps ih =>
    intro ctx
    simp only [runGenericPrios]
    cases hstep : (runGenericBucket event p (buckets p) 0 ctx).2.2 with
    | some e => exact runGenericBucket_all_invoke _ _ _ _ _
    | none =>
      simp only [List.all_append]
      rw [runGenericBucket_all_invoke, ih _]
      rfl

/-- Every action of the schema pass is a handler invocation. -/
theorem schemaPhase_all_invoke (env : Env) (event : String) (ctx : Ctx) :
    (schemaPhase env event ctx).1.all Act.isInvokeB = true := by
  by_cases hempty : env.schemaHandlerSchemas event = []
  · simp [schemaPhase, hempty]
  · cases hsid : ctxGet ctx "schema_id" with
    | none =>
      simp only [schemaPhase, if_neg hempty, hsid]
      exact broadcastSchemas_all_invoke _ _ _ _
    | some v =>
      cases v with
      | vStr sid =>
        by_cases hkeys : env.schemaHandlerKeys event sid = []
        · simp [schemaPhase, hempty, hsid, hkeys]
        · cases hsch : env.schemas sid with
          | none => simp [schemaPhase, hempty, hsid, hkeys, hsch]
          | some sch =>
            simp only [schemaPhase, if_neg hempty, hsid, if_neg hkeys, hsch]
            exact dispatchSchemaEvent_all_invoke _ _ _ _ _ _
      | vNull => simp [schemaPhase, hempty, hsid]
      | vInt n => simp [schemaPhase, hempty, hsid]
      | vFloat q => simp [schemaPhase, hempty, hsid]
      | vBool b => simp [schemaPhase, hempty, hsid]
      | vMap entries => simp [schemaPhase, hempty, hsid]
      | vTx closed => simp [schemaPhase, hempty, hsid]

/-- The trace of HandleEvent is the dispatch start followed by handler
invocations only. -/
theorem handleEvent_acts (env : Env) (event : String) (ctx0 : Ctx) :
    ∃ tr, (handleEvent env event ctx0).1
      = Act.dispatchStart event (ctxSet ctx0 "event_type" (.vStr event)) :: tr
    ∧ tr.all Act.isInvokeB = true := by
  simp only [handleEvent]
  cases hph : (schemaPhase env event (ctxSet ctx0 "event_type" (.vStr event))).2 with
  | fatal m =>
    refine ⟨_, rfl, ?_⟩
    have := schemaPhase_all_invoke env event (ctxSet ctx0 "event_type" (.vStr event))
    exact this
  | done c e =>
    cases e with
    | some e0 =>
      exact ⟨_, rfl, schemaPhase_all_invoke env event _⟩
    | none =>
      refine ⟨_, rfl, ?_⟩
      simp only [List.all_append]
      rw [schemaPhase_all_invoke env event _, runGenericPrios_all_invoke]
      rfl

/-- An invocation-only trace contains no storage write. -/
theorem noWrites_of_all_invoke {tr : List Act}
    (h : tr.all Act.isInvokeB = true) : noWrites tr = true := by
  simp only [noWrites, List.all_eq_true] at *
  intro a ha
  have := h a ha
  cases a <;> simp_all [Act.isInvokeB, Act.isWrite]

/-- An invocation-only trace contains no storage delete. -/
theorem no_delete_of_all_invoke {tr : List Act}
    (h : tr.all Act.isInvokeB = true) : tr.countP isDeleteAct = 0 := by
  simp only [List.all_eq_true] at h
  rw [List.countP_eq_zero]
  intro a ha
  have := h a ha
  cases a <;> simp_all [Act.isInvokeB, isDeleteAct]

/-- An invocation-only trace contains no dispatch start. -/
theorem no_start_of_all_invoke {tr : List Act} (ev : String)
    (h : tr.all Act.isInvokeB = true) : tr.countP (isDispatchStartOf ev) = 0 := by
  simp only [List.all_eq_true] at h
  rw [List.countP_eq_zero]
  intro a ha
  have := h a ha
  cases a <;> simp_all [Act.isInvokeB, isDispatchStartOf]

/-- A dispatch never writes to storage. -/
theorem handleEvent_noWrites (env : Env) (event : String) (ctx0 : Ctx) :
    noWrites (handleEvent env event ctx0).1 = true := by
  obtain ⟨tr, htr, hall⟩ := handleEvent_acts env event ctx0
  rw [htr]
  simp only [noWrites, List.all_cons]
  have := noWrites_of_all_invoke hall
  simp only [noWrites] at this
  rw [this]
  rfl

/-- A dispatch performs no storage delete. -/
theorem handleEvent_no_delete (env : Env) (event : String) (ctx0 : Ctx) :
    (handleEvent env event ctx0).1.countP isDeleteAct = 0 := by
  obtain ⟨tr, htr, hall⟩ := handleEvent_acts env event ctx0
  rw [htr]
  rw [List.countP_cons_of_neg _ _ (by simp [isDeleteAct])]
  exact no_delete_of_all_invoke hall

/-- A dispatch of an event contains exactly one start marker of that event
and none of any other event. -/
theorem handleEvent_count_start (env : Env) (event ev : String) (ctx0 : Ctx) :
    (handleEvent env event ctx0).1.countP (isDispatchStartOf ev)
      = (if event = ev then 1 else 0) := by
  obtain ⟨tr, htr, hall⟩ := handleEvent_acts env event ctx0
  rw [htr]
  by_cases hev : event = ev
  · rw [List.countP_cons_of_pos _ _ (by simp [isDispatchStartOf, hev])]
    rw [no_start_of_all_invoke ev hall]
    simp [hev]
  · rw [List.countP_cons_of_neg _ _ (by simp [isDispatchStartOf, hev])]
    rw [no_start_of_all_invoke ev hall]
    simp [hev]

/-- The invocations of a generic bucket run are a prefix of the stored
handler identities, and the whole list when no handler failed. -/
theorem runGenericBucket_ids (event : String) (p : Int)
    (hs : List (Nat × GHandler)) :
    ∀ idx ctx,
      (∃ k ≤ (hs.map Prod.fst).length,
        invokedIds (runGenericBucket event p hs idx ctx).1
          = (hs.map Prod.fst).take k)
      ∧ ((runGenericBucket event p hs idx ctx).2.2 = none →
        invokedIds (runGenericBucket event p hs idx ctx).1
          = hs.map Prod.fst) := by
  induction hs with
  | nil =>
    intro idx ctx
    exact ⟨⟨0, by simp, rfl⟩, fun _ => rfl⟩
  | cons q rest ih =>
    intro idx ctx
    obtain ⟨hid, h⟩ := q
    simp only [runGenericBucket]
    cases hout : (h ctx).2 with
    | some e =>
      refine ⟨⟨1, by simp, ?_⟩, fun hnone => absurd hnone (by simp)⟩
      simp [invokedIds, Act.invokeId]
    | none =>
      obtain ⟨⟨k, hk, hids⟩, hfull⟩ := ih (idx + 1) (h ctx).1
      constructor
      · refine ⟨k + 1, by simpa using hk, ?_⟩
        rw [invokedIds_invoke_cons]
        simp [hids]
      · intro hnone
        rw [invokedIds_invoke_cons, hfull hnone]
        rfl

/-- The invocations of the generic priority loop are a prefix of its
planned order, and the whole plan when no handler failed. -/
theorem runGenericPrios_ids (event : String)
    (buckets : Int → List (Nat × GHandler)) (ks : List Int) :
    ∀ ctx,
      (∃ k ≤ (ks.flatMap (fun p => (buckets p).map Prod.fst)).length,
        invokedIds (runGenericPrios event buckets ks ctx).1
          = (ks.flatMap (fun p => (buckets p).map Prod.fst)).take k)
      ∧ ((runGenericPrios event buckets ks ctx).2.2 = none →
        invokedIds (runGenericPrios event buckets ks ctx).1
          = ks.flatMap (fun p => (buckets p).map Prod.fst)) := by
  induction ks with
  | nil => intro ctx; exact ⟨⟨0, by simp, rfl⟩, fun _ => rfl⟩
  | cons p ps ih =>
    intro ctx
    simp only [runGenericPrios, List.flatMap_cons]
    cases hstep : (runGenericBucket event p (buckets p) 0 ctx).2.2 with
    | some e =>
      refine ⟨exists_take_left _ (runGenericBucket_ids event p (buckets p) 0 ctx).1,
        fun hnone => absurd hnone (by simp)⟩
    | none =>
      obtain ⟨⟨k, hk, hids⟩, hfull⟩ :=
        ih (runGenericBucket event p (buckets p) 0 ctx).2.1
      have hbfull := (runGenericBucket_ids event p (buckets p) 0 ctx).2 hstep
      constructor
      · rw [invokedIds_append, hbfull]
        exact exists_take_right _ ⟨k, hk, hids⟩
      · intro hnone
        rw [invokedIds_append, hbfull, hfull hnone]

/-- The invocations of a schema bucket run are a prefix of the stored
handler identities, and the whole list when no handler failed. -/
theorem runSchemaBucket_ids (hs : List (Nat × SHandler)) :
    ∀ ctx res,
      (∃ k ≤ (hs.map Prod.fst).length,
        invokedIds (runSchemaBucket hs ctx res).1 = (hs.map Prod.fst).take k)
      ∧ ((runSchemaBucket hs ctx res).2.2.2 = none →
        invokedIds (runSchemaBucket hs ctx res).1 = hs.map Prod.fst) := by
  induction hs with
  | nil =>
    intro ctx res
    exact ⟨⟨0, by simp, rfl⟩, fun _ => rfl⟩
  | cons q rest ih =>
    intro ctx res
    obtain ⟨hid, h⟩ := q
    simp only [runSchemaBucket]
    cases hout : (h (ctxSet ctx "go_validation" (.vBool true)) res).2.2 with
    | some e =>
      refine ⟨⟨1, by simp, ?_⟩, fun hnone => absurd hnone (by simp)⟩
      simp [invokedIds, Act.invokeId]
    | none =>
      obtain ⟨⟨k, hk, hids⟩, hfull⟩ := ih
        (ctxSet (h (ctxSet ctx "go_validation" (.vBool true)) res).1 "resource"
          (resourceToMap (h (ctxSet ctx "go_validation" (.vBool true)) res).2.1))
        (h (ctxSet ctx "go_validation" (.vBool true)) res).2.1
      constructor
      · refine ⟨k + 1, by simpa using hk, ?_⟩
        rw [invokedIds_invoke_cons]
        simp [hids]
      · intro hnone
        rw [invokedIds_invoke_cons, hfull hnone]
        rfl

/-- The invocations of the schema priority loop are a prefix of its
planned order, and the whole plan when no handler failed. -/
theorem runSchemaPrios_ids (buckets : Int → List (Nat × SHandler))
    (ks : List Int) :
    ∀ ctx res,
      (∃ k ≤ (ks.flatMap (fun p => (buckets p).map Prod.fst)).length,
        invokedIds (runSchemaPrios buckets ks ctx res).1
          = (ks.flatMap (fun p => (buckets p).map Prod.fst)).take k)
      ∧ ((runSchemaPrios buckets ks ctx res).2.2.2 = none →
        invokedIds (runSchemaPrios buckets ks ctx res).1
          = ks.flatMap (fun p => (buckets p).map Prod.fst)) := by
  induction ks with
  | nil => intro ctx res; exact ⟨⟨0, by simp, rfl⟩, fun _ => rfl⟩
  | cons p ps ih =>
    intro ctx res
    simp only [runSchemaPrios, List.flatMap_cons]
    cases hstep : (runSchemaBucket (buckets p) ctx res).2.2.2 with
    | some e =>
      refine ⟨exists_take_left _ (runSchemaBucket_ids (buckets p) ctx res).1,
        fun hnone => absurd hnone (by simp)⟩
    | none =>
      obtain ⟨⟨k, hk, hids⟩, hfull⟩ :=
        ih (runSchemaBucket (buckets p) ctx res).2.1
          (runSchemaBucket (buckets p) ctx res).2.2.1
      have hbfull := (runSchemaBucket_ids (buckets p) ctx res).2 hstep
      constructor
      · rw [invokedIds_append, hbfull]
        exact exists_take_right _ ⟨k, hk, hids⟩
      · intro hnone
        rw [invokedIds_append, hbfull, hfull hnone]

/-- The invocations of a schema dispatch are a prefix of its planned
order, and the whole plan on success. -/
theorem dispatchSchemaEvent_ids (env : Env) (sch : SchemaModel)
    (keys : List Int) (buckets : Int → List (Nat × SHandler)) (event : String)
    (ctx : Ctx) :
    (∃ k ≤ (planBuckets keys buckets).length,
      invokedIds (dispatchSchemaEvent env sch keys buckets event ctx).1
        = (planBuckets keys buckets).take k)
    ∧ ((dispatchSchemaEvent env sch keys buckets event ctx).2.isOkB = true →
      invokedIds (dispatchSchemaEvent env sch keys buckets event ctx).1
        = planBuckets keys buckets) := by
  cases hres : resourceFromContext env sch ctx with
  | fatal m =>
    simp only [dispatchSchemaEvent, hres]
    exact ⟨⟨0, by simp, rfl⟩, fun hok => absurd hok (by simp [DispatchOut.isOkB])⟩
  | err e =>
    simp only [dispatchSchemaEvent, hres]
    exact ⟨⟨0, by simp, rfl⟩, fun hok => absurd hok (by simp [DispatchOut.isOkB])⟩
  | ok res =>
    simp only [dispatchSchemaEvent, hres, planBuckets]
    refine ⟨(runSchemaPrios_ids buckets (sortInts keys) ctx res).1, ?_⟩
    intro hok
    cases hrun : (runSchemaPrios buckets (sortInts keys) ctx res).2.2.2 with
    | some e =>
      rw [hrun] at hok
      exact absurd hok (by simp [DispatchOut.isOkB])
    | none => exact (runSchemaPrios_ids buckets (sortInts keys) ctx res).2 hrun

/-- One step of the broadcast plan. -/
theorem broadcastPlan_cons (env : Env) (event sid : String)
    (rest : List String) :
    broadcastPlan env event (sid :: rest)
      = (match env.schemas sid with
         | none => []
         | some _ => planBuckets (env.schemaHandlerKeys event sid)
             (env.schemaHandlers event sid))
        ++ broadcastPlan env event rest := by
  simp [broadcastPlan]

/-- The invocations of the broadcast pass are a prefix of its planned
order, and the whole plan on success. -/
theorem broadcastSchemas_ids (env : Env) (event : String)
    (sids : List String) :
    ∀ ctx,
      (∃ k ≤ (broadcastPlan env event sids).length,
        invokedIds (broadcastSchemas env event sids ctx).1
          = (broadcastPlan env event sids).take k)
      ∧ ((broadcastSchemas env event sids ctx).2.isOkB = true →
        invokedIds (broadcastSchemas env event sids ctx).1
          = broadcastPlan env event sids) := by
  induction sids with
  | nil => intro ctx; exact ⟨⟨0, by simp, rfl⟩, fun _ => rfl⟩
  | cons sid rest ih =>
    intro ctx
    rw [broadcastPlan_cons]
    cases hsch : env.schemas sid with
    | none =>
      simp only [broadcastSchemas, hsch]
      exact ⟨⟨0, by simp, rfl⟩, fun hok => absurd hok (by simp [DispatchOut.isOkB])⟩
    | some sch =>
      simp only [broadcastSchemas, hsch]
      cases hstep : (dispatchSchemaEvent env sch (env.schemaHandlerKeys event sid)
          (env.schemaHandlers event sid) event ctx).2 with
      | fatal m =>
        refine ⟨exists_take_left _
          (dispatchSchemaEvent_ids env sch _ _ event ctx).1,
          fun hok => absurd hok (by simp [DispatchOut.isOkB])⟩
      | done c e =>
        cases e with
        | some e0 =>
          refine ⟨exists_take_left _
            (dispatchSchemaEvent_ids env sch _ _ event ctx).1,
            fun hok => absurd hok (by simp [DispatchOut.isOkB])⟩
        | none =>
          have hsfull := (dispatchSchemaEvent_ids env sch
            (env.schemaHandlerKeys event sid) (env.schemaHandlers event sid)
            event ctx).2 (by rw [hstep]; rfl)
          obtain ⟨pref, full⟩ := ih c
          constructor
          · rw [invokedIds_append, hsfull]
            exact exists_take_right _ pref
          · intro hok
            rw [invokedIds_append, hsfull, full hok]

/-- The invocations of the schema pass are a prefix of its planned order,
and the whole plan on success. -/
theorem schemaPhase_ids (env : Env) (event : String) (ctx : Ctx) :
    (∃ k ≤ (schemaPlanOf env event ctx).length,
      invokedIds (schemaPhase env event ctx).1
        = (schemaPlanOf env event ctx).take k)
    ∧ ((schemaPhase env event ctx).2.isOkB = true →
      invokedIds (schemaPhase env event ctx).1 = schemaPlanOf env event ctx) := by
  by_cases hempty : env.schemaHandlerSchemas event = []
  · simp only [schemaPhase, schemaPlanOf, if_pos hempty]
    exact ⟨⟨0, by simp, rfl⟩, fun _ => rfl⟩
  · cases hsid : ctxGet ctx "schema_id" with
    | none =>
      simp only [schemaPhase, schemaPlanOf, if_neg hempty, hsid]
      exact broadcastSchemas_ids env event (env.schemaHandlerSchemas event) ctx
    | some v =>
      cases v with
      | vStr sid =>
        by_cases hkeys : env.schemaHandlerKeys event sid = []
        · simp only [schemaPhase, schemaPlanOf, if_neg hempty, hsid, if_pos hkeys]
          exact ⟨⟨0, by simp, rfl⟩, fun _ => rfl⟩
        · cases hsch : env.schemas sid with
          | none =>
            simp only [schemaPhase, schemaPlanOf, if_neg hempty, hsid,
              if_neg hkeys, hsch]
            exact ⟨⟨0, by simp, rfl⟩, fun _ => rfl⟩
          | some sch =>
            simp only [schemaPhase, schemaPlanOf, if_neg hempty, hsid,
              if_neg hkeys, hsch]
            exact dispatchSchemaEvent_ids env sch _ _ event ctx
      | vNull =>
        simp only [schemaPhase, schemaPlanOf, if_neg hempty, hsid]
        exact ⟨⟨0, by simp, rfl⟩, fun hok => absurd hok (by simp [DispatchOut.isOkB])⟩
      | vInt n =>
        simp only [schemaPhase, schemaPlanOf, if_neg hempty, hsid]
        exact ⟨⟨0, by simp, rfl⟩, fun hok => absurd hok (by simp [DispatchOut.isOkB])⟩
      | vFloat q =>
        simp only [schemaPhase, schemaPlanOf, if_neg hempty, hsid]
        exact ⟨⟨0, by simp, rfl⟩, fun hok => absurd hok (by simp [DispatchOut.isOkB])⟩
      | vBool b =>
        simp only [schemaPhase, schemaPlanOf, if_neg hempty, hsid]
        exact ⟨⟨0, by simp, rfl⟩, fun hok => absurd hok (by simp [DispatchOut.isOkB])⟩
      | vMap entries =>
        simp only [schemaPhase, schemaPlanOf, if_neg hempty, hsid]
        exact ⟨⟨0, by simp, rfl⟩, fun hok => absurd hok (by simp [DispatchOut.isOkB])⟩
      | vTx closed =>
        simp only [schemaPhase, schemaPlanOf, if_neg hempty, hsid]
        exact ⟨⟨0, by simp, rfl⟩, fun hok => absurd hok (by simp [DispatchOut.isOkB])⟩

/-- The invocations of a whole dispatch are a prefix of its planned order,
and the whole plan on success. -/
theorem handleEvent_ids (env : Env) (event : String) (ctx0 : Ctx) :
    (∃ k ≤ (planOf env event ctx0).length,
      invokedIds (handleEvent env event ctx0).1
        = (planOf env event ctx0).take k)
    ∧ ((handleEvent env event ctx0).2.isOkB = true →
      invokedIds (handleEvent env event ctx0).1 = planOf env event ctx0) := by
  cases hph : (schemaPhase env event (ctxSet ctx0 "event_type" (.vStr event))).2 with
  | fatal m =>
    simp only [handleEvent, planOf, hph]
    constructor
    · rw [invokedIds_start_cons]
      exact exists_take_left _ (schemaPhase_ids env event _).1
    · intro hok
      exact absurd hok (by simp [DispatchOut.isOkB])
  | done c e =>
    cases e with
    | some e0 =>
      simp only [handleEvent, planOf, hph]
      constructor
      · rw [invokedIds_start_cons]
        exact exists_take_left _ (schemaPhase_ids env event _).1
      · intro hok
        exact absurd hok (by simp [DispatchOut.isOkB])
    | none =>
      simp only [handleEvent, planOf, hph]
      have hsfull := (schemaPhase_ids env event
        (ctxSet ctx0 "event_type" (.vStr event))).2 (by rw [hph]; rfl)
      constructor
      · rw [invokedIds_start_cons, invokedIds_append, hsfull]
        exact exists_take_right _ (by
          simpa only [planBuckets] using
            (runGenericPrios_ids event (env.handlers event)
              (sortInts (env.handlerKeys event)) c).1)
      · intro hok
        cases hgen : (runGenericPrios event (env.handlers event)
            (sortInts (env.handlerKeys event)) c).2.2 with
        | some e =>
          rw [hgen] at hok
          exact absurd hok (by simp [DispatchOut.isOkB])
        | none =>
          rw [invokedIds_start_cons, invokedIds_append, hsfull]
          have := (runGenericPrios_ids event (env.handlers event)
            (sortInts (env.handlerKeys event)) c).2 hgen
          rw [this]
          simp only [planBuckets]

/-- A dispatch that reports an error is a done result carrying it. -/
theorem errOf_eq_some {d : DispatchOut} {e : GoErr} (h : d.errOf = some e) :
    ∃ c, d = .done c (some e) := by
  cases d with
  | done c e0 => cases e0 <;> simp_all [DispatchOut.errOf]
  | fatal m => simp [DispatchOut.errOf] at h

/-- Past the pointer check, the transaction guard and the id assertion,
create runs its main body. -/
theorem screate_reduce (env : Env) (sch : SchemaModel) (storage : Storage)
    (r : RawResource) (ctx? : Option Ctx) (trig : Bool) (rid : String)
    (hop : hasOpenTransaction ctx? = true)
    (hid : assertIdString (resourceToMapEntries r) = .ok rid) :
    screate env sch storage (.ptr r) ctx? trig
      = screateMain env sch storage r rid (ctx?.getD []) trig := by
  simp [screate, isPointerArg, mustGet_ok_of_open ctx? hop, hid]

/-- Past the pointer check and the transaction guard, update runs its main
body. -/
theorem supdate_reduce (env : Env) (sch : SchemaModel) (storage : Storage)
    (r : RawResource) (ctx? : Option Ctx) (trig : Bool)
    (hop : hasOpenTransaction ctx? = true) :
    supdate env sch storage (.ptr r) ctx? trig
      = supdateMain env sch storage r (ctx?.getD []) trig := by
  simp [supdate, isPointerArg, mustGet_ok_of_open ctx? hop]

/-- A failing pre-create dispatch makes the main body of create return
that failure with the dispatch trace only. -/
theorem screateMain_pre_fail (env : Env) (sch : SchemaModel)
    (storage : Storage) (r : RawResource) (rid : String) (c : Ctx) (e : GoErr)
    (h : (handleEvent env "pre_create"
      (buildOpCtx c (resourceToMapEntries r) rid sch.id)).2.errOf = some e) :
    screateMain env sch storage r rid c true
      = ((handleEvent env "pre_create"
          (buildOpCtx c (resourceToMapEntries r) rid sch.id)).1, .err e) := by
  obtain ⟨cc, hcc⟩ := errOf_eq_some h
  simp [screateMain, hcc]

/-- A failing pre-update dispatch makes the main body of update return
that failure with the dispatch trace only. -/
theorem supdateMain_pre_fail (env : Env) (sch : SchemaModel)
    (storage : Storage) (r : RawResource) (c : Ctx) (e : GoErr)
    (h : (handleEvent env "pre_update"
      (buildOpCtx c (resourceToMapEntries r)
        (resourceDataId (resourceToMapEntries r)) sch.id)).2.errOf = some e) :
    supdateMain env sch storage r c true
      = ((handleEvent env "pre_update"
          (buildOpCtx c (resourceToMapEntries r)
            (resourceDataId (resourceToMapEntries r)) sch.id)).1, .err e) := by
  obtain ⟨cc, hcc⟩ := errOf_eq_some h
  simp [supdateMain, hcc]

/-- A failing pre-delete dispatch makes the delete row step return that
failure with the dispatch trace only. -/
theorem deleteRowStep_pre_fail (env : Env) (sch : SchemaModel)
    (storage : Storage) (r : RawResource) (ctx : Ctx) (rid : String)
    (e : GoErr) (hid : getResourceIdString r = .ok rid)
    (h : (handleEvent env "pre_delete" (deleteRowCtx sch r rid ctx)).2.errOf
      = some e) :
    (deleteRowStep env sch storage true r ctx).1
      = (handleEvent env "pre_delete" (deleteRowCtx sch r rid ctx)).1
    ∧ (deleteRowStep env sch storage true r ctx).2.2 = .err e := by
  obtain ⟨cc, hcc⟩ := errOf_eq_some h
  constructor <;> simp [deleteRowStep, hid, hcc]

/-- A failed chain absorbs anything appended after it: once the reference
run fails, handlers of a later bucket never run. -/
theorem failFastRun_append_fail (l₁ l₂ : List (Nat × GHandler)) :
    ∀ ctx f, (failFastRun l₁ ctx).2.2 = some f →
      failFastRun (l₁ ++ l₂) ctx = failFastRun l₁ ctx := by
  induction l₁ with
  | nil => intro ctx f h; simp [failFastRun] at h
  | cons q rest ih =>
    intro ctx f h
    obtain ⟨hid, hh⟩ := q
    rcases hc : hh ctx with ⟨c2, e2⟩
    cases e2 with
    | some e => simp only [List.cons_append, failFastRun, hc]
    | none =>
      simp only [failFastRun, hc] at h
      simp only [List.cons_append, failFastRun, hc, List.append_eq]
      rw [ih c2 f h]

/-- A successful chain continues into anything appended after it. -/
theorem failFastRun_append_ok (l₁ l₂ : List (Nat × GHandler)) :
    ∀ ctx, (failFastRun l₁ ctx).2.2 = none →
      failFastRun (l₁ ++ l₂) ctx
        = ((failFastRun l₁ ctx).1
            ++ (failFastRun l₂ (failFastRun l₁ ctx).2.1).1,
           (failFastRun l₂ (failFastRun l₁ ctx).2.1).2) := by
  induction l₁ with
  | nil => intro ctx _; simp [failFastRun]
  | cons q rest ih =>
    intro ctx h
    obtain ⟨hid, hh⟩ := q
    rcases hc : hh ctx with ⟨c2, e2⟩
    cases e2 with
    | some e => simp [failFastRun, hc] at h
    | none =>
      simp only [failFastRun, hc] at h
      simp only [List.cons_append, failFastRun, hc, List.append_eq]
      rw [ih c2 h]

/-- A generic bucket run invokes exactly the reference fail-fast sequence
of its handlers, leaving the same context and failing together with
it. -/
theorem runGenericBucket_failFast (event : String) (p : Int)
    (hs : List (Nat × GHandler)) :
    ∀ idx ctx,
      invokedIds (runGenericBucket event p hs idx ctx).1
        = (failFastRun hs ctx).1
      ∧ (runGenericBucket event p hs idx ctx).2.1 = (failFastRun hs ctx).2.1
      ∧ ((runGenericBucket event p hs idx ctx).2.2 = none
          ↔ (failFastRun hs ctx).2.2 = none) := by
  induction hs with
  | nil => intro idx ctx; exact ⟨rfl, rfl, by simp [runGenericBucket, failFastRun]⟩
  | cons q rest ih =>
    intro idx ctx
    obtain ⟨hid, hh⟩ := q
    rcases hc : hh ctx with ⟨c2, e2⟩
    simp only [runGenericBucket, failFastRun, hc]
    cases e2 with
    | some e => exact ⟨by simp [invokedIds, Act.invokeId], rfl, by simp⟩
    | none =>
      obtain ⟨hids, hctx, hiff⟩ := ih (idx + 1) c2
      exact ⟨by rw [invokedIds_invoke_cons, hids], hctx, hiff⟩

/-- The generic priority loop on a failing first bucket stops with that
bucket. -/
theorem runGenericPrios_cons_fail (event : String)
    (buckets : Int → List (Nat × GHandler)) (p : Int) (ps : List Int)
    (ctx : Ctx) (e : GoErr)
    (h : (runGenericBucket event p (buckets p) 0 ctx).2.2 = some e) :
    runGenericPrios event buckets (p :: ps) ctx
      = ((runGenericBucket event p (buckets p) 0 ctx).1,
         (runGenericBucket event p (buckets p) 0 ctx).2.1, some e) := by
  simp [runGenericPrios, h]

/-- The generic priority loop on a successful first bucket continues on
the mutated context. -/
theorem runGenericPrios_cons_ok (event : String)
    (buckets : Int → List (Nat × GHandler)) (p : Int) (ps : List Int)
    (ctx : Ctx)
    (h : (runGenericBucket event p (buckets p) 0 ctx).2.2 = none) :
    runGenericPrios event buckets (p :: ps) ctx
      = ((runGenericBucket event p (buckets p) 0 ctx).1
          ++ (runGenericPrios event buckets ps
              (runGenericBucket event p (buckets p) 0 ctx).2.1).1,
         (runGenericPrios event buckets ps
            (runGenericBucket event p (buckets p) 0 ctx).2.1).2) := by
  simp [runGenericPrios, h]

/-- The generic pass over its sorted priorities invokes exactly the
reference fail-fast sequence of the flattened bucket chain: the failing
handler is the last invoked and nothing planned after it — later in its
bucket or in a later bucket — runs. -/
theorem runGenericPrios_failFast (event : String)
    (buckets : Int → List (Nat × GHandler)) (ks : List Int) :
    ∀ ctx,
      invokedIds (runGenericPrios event buckets ks ctx).1
        = (failFastRun (ks.flatMap buckets) ctx).1
      ∧ (runGenericPrios event buckets ks ctx).2.1
        = (failFastRun (ks.flatMap buckets) ctx).2.1
      ∧ ((runGenericPrios event buckets ks ctx).2.2 = none
          ↔ (failFastRun (ks.flatMap buckets) ctx).2.2 = none) := by
  induction ks with
  | nil => intro ctx; exact ⟨rfl, rfl, by simp [runGenericPrios, failFastRun]⟩
  | cons p ps ih =>
    intro ctx
    rw [List.flatMap_cons]
    obtain ⟨hbids, hbctx, hbiff⟩ := runGenericBucket_failFast event p (buckets p) 0 ctx
    cases hstep : (runGenericBucket event p (buckets p) 0 ctx).2.2 with
    | some e =>
      have hbfail : (failFastRun (buckets p) ctx).2.2 ≠ none := fun hn =>
        absurd (hstep.symm.trans (hbiff.mpr hn)) (by simp)
      obtain ⟨f, hf⟩ := Option.ne_none_iff_exists'.mp hbfail
      rw [runGenericPrios_cons_fail event buckets p ps ctx e hstep,
        failFastRun_append_fail (buckets p) (ps.flatMap buckets) ctx f hf]
      refine ⟨hbids, hbctx, ?_⟩
      rw [hf]
      simp
    | none =>
      have hbok : (failFastRun (buckets p) ctx).2.2 = none := hbiff.mp hstep
      rw [runGenericPrios_cons_ok event buckets p ps ctx hstep,
        failFastRun_append_ok (buckets p) (ps.flatMap buckets) ctx hbok]
      obtain ⟨hrids, hrctx, hriff⟩ :=
        ih (runGenericBucket event p (buckets p) 0 ctx).2.1
      rw [hbctx] at hrids hrctx hriff
      refine ⟨?_, ?_, ?_⟩
      · simp only [invokedIds_append, hbids, hbctx, hrids]
      · simp only [hbctx, hrctx]
      · simp only [hbctx, hriff]

/-- When the reference run fails, the failing handler is the last one
invoked. -/
theorem failFastRun_last_fails (hs : List (Nat × GHandler)) :
    ∀ ctx hid e, (failFastRun hs ctx).2.2 = some (hid, e) →
      (failFastRun hs ctx).1.getLast? = some hid := by
  induction hs with
  | nil => intro ctx hid e h; simp [failFastRun] at h
  | cons q rest ih =>
    intro ctx hid e h
    obtain ⟨hid', hh⟩ := q
    rcases hc : hh ctx with ⟨c2, e2⟩
    simp only [failFastRun, hc] at h ⊢
    cases e2 with
    | some e' =>
      simp only [Option.some.injEq, Prod.mk.injEq] at h
      simp [h.1]
    | none =>
      have hlast := ih c2 hid e h
      show (hid' :: (failFastRun rest c2).1).getLast? = some hid
      cases hr : (failFastRun rest c2).1 with
      | nil => rw [hr] at hlast; simp at hlast
      | cons a as =>
        rw [hr] at hlast
        rw [List.getLast?_cons_cons]
        exact hlast

/-- A failed schema chain absorbs anything appended after it. -/
theorem failFastRunSchema_append_fail (l₁ l₂ : List (Nat × SHandler)) :
    ∀ ctx res f, (failFastRunSchema l₁ ctx res).2.2.2 = some f →
      failFastRunSchema (l₁ ++ l₂) ctx res = failFastRunSchema l₁ ctx res := by
  induction l₁ with
  | nil => intro ctx res f h; simp [failFastRunSchema] at h
  | cons q rest ih =>
    intro ctx res f h
    obtain ⟨hid, hh⟩ := q
    rcases hc : hh (ctxSet ctx "go_validation" (.vBool true)) res with ⟨c2, r2, e2⟩
    cases e2 with
    | some e => simp only [List.cons_append, failFastRunSchema, hc]
    | none =>
      simp only [failFastRunSchema, hc] at h
      simp only [List.cons_append, failFastRunSchema, hc, List.append_eq]
      rw [ih _ r2 f h]

/-- A successful schema chain continues into anything appended after
it. -/
theorem failFastRunSchema_append_ok (l₁ l₂ : List (Nat × SHandler)) :
    ∀ ctx res, (failFastRunSchema l₁ ctx res).2.2.2 = none →
      failFastRunSchema (l₁ ++ l₂) ctx res
        = ((failFastRunSchema l₁ ctx res).1
            ++ (failFastRunSchema l₂ (failFastRunSchema l₁ ctx res).2.1
                (failFastRunSchema l₁ ctx res).2.2.1).1,
           (failFastRunSchema l₂ (failFastRunSchema l₁ ctx res).2.1
              (failFastRunSchema l₁ ctx res).2.2.1).2) := by
  induction l₁ with
  | nil => intro ctx res _; simp [failFastRunSchema]
  | cons q rest ih =>
    intro ctx res h
    obtain ⟨hid, hh⟩ := q
    rcases hc : hh (ctxSet ctx "go_validation" (.vBool true)) res with ⟨c2, r2, e2⟩
    cases e2 with
    | some e => simp [failFastRunSchema, hc] at h
    | none =>
      simp only [failFastRunSchema, hc] at h
      simp only [List.cons_append, failFastRunSchema, hc, List.append_eq]
      rw [ih _ r2 h]

/-- A schema bucket run invokes exactly the reference fail-fast sequence
of its handlers, leaving the same context and resource and failing
together with it. -/
theorem runSchemaBucket_failFast (hs : List (Nat × SHandler)) :
    ∀ ctx res,
      invokedIds (runSchemaBucket hs ctx res).1
        = (failFastRunSchema hs ctx res).1
      ∧ (runSchemaBucket hs ctx res).2.1 = (failFastRunSchema hs ctx res).2.1
      ∧ (runSchemaBucket hs ctx res).2.2.1
        = (failFastRunSchema hs ctx res).2.2.1
      ∧ ((runSchemaBucket hs ctx res).2.2.2 = none
          ↔ (failFastRunSchema hs ctx res).2.2.2 = none) := by
  induction hs with
  | nil =>
    intro ctx res
    exact ⟨rfl, rfl, rfl, by simp [runSchemaBucket, failFastRunSchema]⟩
  | cons q rest ih =>
    intro ctx res
    obtain ⟨hid, hh⟩ := q
    rcases hc : hh (ctxSet ctx "go_validation" (.vBool true)) res with ⟨c2, r2, e2⟩
    simp only [runSchemaBucket, failFastRunSchema, hc]
    cases e2 with
    | some e => exact ⟨by simp [invokedIds, Act.invokeId], rfl, rfl, by simp⟩
    | none =>
      obtain ⟨hids, hctx, hres, hiff⟩ := ih (ctxSet c2 "resource" (resourceToMap r2)) r2
      exact ⟨by rw [invokedIds_invoke_cons, hids], hctx, hres, hiff⟩

/-- The schema priority loop on a failing first bucket stops with that
bucket. -/
theorem runSchemaPrios_cons_fail (buckets : Int → List (Nat × SHandler))
    (p : Int) (ps : List Int) (ctx : Ctx) (res : RawResource) (e : GoErr)
    (h : (runSchemaBucket (buckets p) ctx res).2.2.2 = some e) :
    runSchemaPrios buckets (p :: ps) ctx res
      = ((runSchemaBucket (buckets p) ctx res).1,
         (runSchemaBucket (buckets p) ctx res).2.1,
         (runSchemaBucket (buckets p) ctx res).2.2.1, some e) := by
  simp [runSchemaPrios, h]

/-- The schema priority loop on a successful first bucket continues on
the mutated context and resource. -/
theorem runSchemaPrios_cons_ok (buckets : Int → List (Nat × SHandler))
    (p : Int) (ps : List Int) (ctx : Ctx) (res : RawResource)
    (h : (runSchemaBucket (buckets p) ctx res).2.2.2 = none) :
    runSchemaPrios buckets (p :: ps) ctx res
      = ((runSchemaBucket (buckets p) ctx res).1
          ++ (runSchemaPrios buckets ps (runSchemaBucket (buckets p) ctx res).2.1
              (runSchemaBucket (buckets p) ctx res).2.2.1).1,
         (runSchemaPrios buckets ps (runSchemaBucket (buckets p) ctx res).2.1
            (runSchemaBucket (buckets p) ctx res).2.2.1).2) := by
  simp [runSchemaPrios, h]

/-- The schema priority loop over its sorted priorities invokes exactly
the reference fail-fast sequence of the flattened bucket chain. -/
theorem runSchemaPrios_failFast (buckets : Int → List (Nat × SHandler))
    (ks : List Int) :
    ∀ ctx res,
      invokedIds (runSchemaPrios buckets ks ctx res).1
        = (failFastRunSchema (ks.flatMap buckets) ctx res).1
      ∧ (runSchemaPrios buckets ks ctx res).2.1
        = (failFastRunSchema (ks.flatMap buckets) ctx res).2.1
      ∧ (runSchemaPrios buckets ks ctx res).2.2.1
        = (failFastRunSchema (ks.flatMap buckets) ctx res).2.2.1
      ∧ ((runSchemaPrios buckets ks ctx res).2.2.2 = none
          ↔ (failFastRunSchema (ks.flatMap buckets) ctx res).2.2.2 = none) := by
  induction ks with
  | nil =>
    intro ctx res
    exact ⟨rfl, rfl, rfl, by simp [runSchemaPrios, failFastRunSchema]⟩
  | cons p ps ih =>
    intro ctx res
    rw [List.flatMap_cons]
    obtain ⟨hbids, hbctx, hbres, hbiff⟩ := runSchemaBucket_failFast (buckets p) ctx res
    cases hstep : (runSchemaBucket (buckets p) ctx res).2.2.2 with
    | some e =>
      have hbfail : (failFastRunSchema (buckets p) ctx res).2.2.2 ≠ none := fun hn =>
        absurd (hstep.symm.trans (hbiff.mpr hn)) (by simp)
      obtain ⟨f, hf⟩ := Option.ne_none_iff_exists'.mp hbfail
      rw [runSchemaPrios_cons_fail buckets p ps ctx res e hstep,
        failFastRunSchema_append_fail (buckets p) (ps.flatMap buckets) ctx res f hf]
      refine ⟨hbids, hbctx, hbres, ?_⟩
      rw [hf]
      simp
    | none =>
      have hbok : (failFastRunSchema (buckets p) ctx res).2.2.2 = none :=
        hbiff.mp hstep
      rw [runSchemaPrios_cons_ok buckets p ps ctx res hstep,
        failFastRunSchema_append_ok (buckets p) (ps.flatMap buckets) ctx res hbok]
      obtain ⟨hrids, hrctx, hrres, hriff⟩ :=
        ih (runSchemaBucket (buckets p) ctx res).2.1
          (runSchemaBucket (buckets p) ctx res).2.2.1
      rw [hbctx, hbres] at hrids hrctx hrres hriff
      refine ⟨?_, ?_, ?_, ?_⟩
      · simp only [invokedIds_append, hbids, hbctx, hbres, hrids]
      · simp only [hbctx, hbres, hrctx]
      · simp only [hbctx, hbres, hrres]
      · simp only [hbctx, hbres, hriff]

/-- When the reference schema run fails, the failing handler is the last
one invoked. -/
theorem failFastRunSchema_last_fails (hs : List (Nat × SHandler)) :
    ∀ ctx res hid e, (failFastRunSchema hs ctx res).2.2.2 = some (hid, e) →
      (failFastRunSchema hs ctx res).1.getLast? = some hid := by
  induction hs with
  | nil => intro ctx res hid e h; simp [failFastRunSchema] at h
  | cons q rest ih =>
    intro ctx res hid e h
    obtain ⟨hid', hh⟩ := q
    rcases hc : hh (ctxSet ctx "go_validation" (.vBool true)) res with ⟨c2, r2, e2⟩
    simp only [failFastRunSchema, hc] at h ⊢
    cases e2 with
    | some e' =>
      simp only [Option.some.injEq, Prod.mk.injEq] at h
      simp [h.1]
    | none =>
      have hlast := ih (ctxSet c2 "resource" (resourceToMap r2)) r2 hid e h
      show (hid' :: (failFastRunSchema rest
        (ctxSet c2 "resource" (resourceToMap r2)) r2).1).getLast? = some hid
      cases hr : (failFastRunSchema rest (ctxSet c2 "resource" (resourceToMap r2)) r2).1 with
      | nil => rw [hr] at hlast; simp at hlast
      | cons a as =>
        rw [hr] at hlast
        rw [List.getLast?_cons_cons]
        exact hlast

/-- A successfully marshaled schema dispatch invokes exactly the
reference fail-fast sequence of its flattened sorted bucket chain. -/
theorem dispatchSchemaEvent_failFast (env : Env) (sch : SchemaModel)
    (keys : List Int) (buckets : Int → List (Nat × SHandler)) (event : String)
    (ctx : Ctx) (res : RawResource)
    (hres : resourceFromContext env sch ctx = .ok res) :
    invokedIds (dispatchSchemaEvent env sch keys buckets event ctx).1
      = (failFastRunSchema ((sortInts keys).flatMap buckets) ctx res).1
    ∧ ((dispatchSchemaEvent env sch keys buckets event ctx).2.isOkB = true
        ↔ (failFastRunSchema ((sortInts keys).flatMap buckets) ctx res).2.2.2
          = none) := by
  simp only [dispatchSchemaEvent, hres]
  obtain ⟨hids, _, _, hiff⟩ := runSchemaPrios_failFast buckets (sortInts keys) ctx res
  refine ⟨hids, ?_, ?_⟩
  · intro hok
    cases hrun : (runSchemaPrios buckets (sortInts keys) ctx res).2.2.2 with
    | some e =>
      rw [hrun] at hok
      exact absurd hok (by simp [DispatchOut.isOkB])
    | none => exact hiff.mp hrun
  · intro hnone
    rw [hiff.mpr hnone]
    rfl

/-- A schema-pass failure ends the whole dispatch: its trace is the start
marker plus the schema-pass actions only, so no generic handler runs. -/
theorem handleEvent_schema_fail_eq (env : Env) (event : String) (ctx0 : Ctx)
    (c : Ctx) (e : GoErr)
    (h : (schemaPhase env event (ctxSet ctx0 "event_type" (.vStr event))).2
      = .done c (some e)) :
    handleEvent env event ctx0
      = (.dispatchStart event (ctxSet ctx0 "event_type" (.vStr event))
          :: (schemaPhase env event (ctxSet ctx0 "event_type" (.vStr event))).1,
         .done c (some e)) := by
  simp [handleEvent, h]

/-- A successful schema pass is followed by the generic pass over the
sorted generic priorities. -/
theorem handleEvent_schema_ok_eq (env : Env) (event : String) (ctx0 : Ctx)
    (c : Ctx)
    (h : (schemaPhase env event (ctxSet ctx0 "event_type" (.vStr event))).2
      = .done c none) :
    handleEvent env event ctx0
      = (.dispatchStart event (ctxSet ctx0 "event_type" (.vStr event))
          :: ((schemaPhase env event (ctxSet ctx0 "event_type" (.vStr event))).1
            ++ (runGenericPrios event (env.handlers event)
                (sortInts (env.handlerKeys event)) c).1),
         .done (runGenericPrios event (env.handlers event)
            (sortInts (env.handlerKeys event)) c).2.1
           (runGenericPrios event (env.handlers event)
              (sortInts (env.handlerKeys event)) c).2.2) := by
  simp [handleEvent, h]

/-- Claim C1: for every event dispatch the invoked handlers are a prefix
of the planned priority-ascending order; each pass invokes exactly the
reference fail-fast sequence of its flattened sorted handler chain, whose
failing handler is the last one invoked — so once a handler fails no
later handler of that event runs, neither later in the same priority
bucket nor at a higher priority, and a schema-pass failure also stops the
whole generic pass; and a failing pre_create, pre_update or pre_delete
dispatch makes the triggering operation return that failure with a trace
free of storage writes, so the corresponding tx.Create, tx.Update or
tx.Delete is never invoked for that operation. -/
theorem c1_fail_fast :
    (∀ env event ctx, ∃ k ≤ (planOf env event ctx).length,
      invokedIds (handleEvent env event ctx).1 = (planOf env event ctx).take k)
  ∧ (∀ (event : String) (buckets : Int → List (Nat × GHandler))
      (ks : List Int) (ctx : Ctx),
      invokedIds (runGenericPrios event buckets ks ctx).1
        = (failFastRun (ks.flatMap buckets) ctx).1
      ∧ ((runGenericPrios event buckets ks ctx).2.2 = none
          ↔ (failFastRun (ks.flatMap buckets) ctx).2.2 = none))
  ∧ (∀ hs ctx hid e, (failFastRun hs ctx).2.2 = some (hid, e) →
      (failFastRun hs ctx).1.getLast? = some hid)
  ∧ (∀ env sch keys buckets event ctx res,
      resourceFromContext env sch ctx = .ok res →
      invokedIds (dispatchSchemaEvent env sch keys buckets event ctx).1
        = (failFastRunSchema ((sortInts keys).flatMap buckets) ctx res).1
      ∧ ((dispatchSchemaEvent env sch keys buckets event ctx).2.isOkB = true
          ↔ (failFastRunSchema ((sortInts keys).flatMap buckets) ctx res).2.2.2
            = none))
  ∧ (∀ hs ctx res hid e,
      (failFastRunSchema hs ctx res).2.2.2 = some (hid, e) →
      (failFastRunSchema hs ctx res).1.getLast? = some hid)
  ∧ (∀ env event ctx0 c e,
      (schemaPhase env event (ctxSet ctx0 "event_type" (.vStr event))).2
        = .done c (some e) →
      handleEvent env event ctx0
        = (.dispatchStart event (ctxSet ctx0 "event_type" (.vStr event))
            :: (schemaPhase env event (ctxSet ctx0 "event_type" (.vStr event))).1,
           .done c (some e)))
  ∧ (∀ env event ctx0 c,
      (schemaPhase env event (ctxSet ctx0 "event_type" (.vStr event))).2
        = .done c none →
      handleEvent env event ctx0
        = (.dispatchStart event (ctxSet ctx0 "event_type" (.vStr event))
            :: ((schemaPhase env event (ctxSet ctx0 "event_type" (.vStr event))).1
              ++ (runGenericPrios event (env.handlers event)
                  (sortInts (env.handlerKeys event)) c).1),
           .done (runGenericPrios event (env.handlers event)
              (sortInts (env.handlerKeys event)) c).2.1
             (runGenericPrios event (env.handlers event)
                (sortInts (env.handlerKeys event)) c).2.2))
  ∧ (∀ env sch storage r ctx? rid e, hasOpenTransaction ctx? = true →
      assertIdString (resourceToMapEntries r) = .ok rid →
      (handleEvent env "pre_create" (buildOpCtx (ctx?.getD [])
        (resourceToMapEntries r) rid sch.id)).2.errOf = some e →
      (screate env sch storage (.ptr r) ctx? true).2 = .err e
      ∧ noWrites (screate env sch storage (.ptr r) ctx? true).1 = true)
  ∧ (∀ env sch storage r ctx? e, hasOpenTransaction ctx? = true →
      (handleEvent env "pre_update" (buildOpCtx (ctx?.getD [])
        (resourceToMapEntries r)
        (resourceDataId (resourceToMapEntries r)) sch.id)).2.errOf = some e →
      (supdate env sch storage (.ptr r) ctx? true).2 = .err e
      ∧ noWrites (supdate env sch storage (.ptr r) ctx? true).1 = true)
  ∧ (∀ env sch storage r ctx rid e, getResourceIdString r = .ok rid →
      (handleEvent env "pre_delete" (deleteRowCtx sch r rid ctx)).2.errOf
        = some e →
      (deleteRowStep env sch storage true r ctx).2.2 = .err e
      ∧ noWrites (deleteRowStep env sch storage true r ctx).1 = true) := by
  refine ⟨fun env event ctx => (handleEvent_ids env event ctx).1,
    fun event buckets ks ctx =>
      ⟨(runGenericPrios_failFast event buckets ks ctx).1,
       (runGenericPrios_failFast event buckets ks ctx).2.2⟩,
    fun hs ctx hid e h => failFastRun_last_fails hs ctx hid e h,
    fun env sch keys buckets event ctx res hres =>
      dispatchSchemaEvent_failFast env sch keys buckets event ctx res hres,
    fun hs ctx res hid e h => failFastRunSchema_last_fails hs ctx res hid e h,
    fun env event ctx0 c e h =>
      handleEvent_schema_fail_eq env event ctx0 c e h,
    fun env event ctx0 c h => handleEvent_schema_ok_eq env event ctx0 c h,
    fun env sch storage r ctx? rid e hop hid hpre => ?_,
    fun env sch storage r ctx? e hop hpre => ?_,
    fun env sch storage r ctx rid e hid hpre => ?_⟩
  · rw [screate_reduce env sch storage r ctx? true rid hop hid,
      screateMain_pre_fail env sch storage r rid (ctx?.getD []) e hpre]
    exact ⟨rfl, handleEvent_noWrites env "pre_create" _⟩
  · rw [supdate_reduce env sch storage r ctx? true hop,
      supdateMain_pre_fail env sch storage r (ctx?.getD []) e hpre]
    exact ⟨rfl, handleEvent_noWrites env "pre_update" _⟩
  · obtain ⟨htr, hres⟩ := deleteRowStep_pre_fail env sch storage r ctx rid e hid hpre
    refine ⟨hres, ?_⟩
    rw [htr]
    exact handleEvent_noWrites env "pre_delete" _

/-- Witness for C1 at concrete inputs: a failing generic pre-create
handler at priority 2 aborts create with its wrapped failure and no
storage write, and with a further handler registered at priority 3 the
dispatch invokes only the failing handler — the priority-3 handler never
runs. -/
theorem c1_fail_fast_witness :
    ((screate envPreCreateFail schNet storageOk (.ptr rWitness)
      (some ctxOpen) true).2
      = .err (.msg
        "failed to dispatch event pre_create at priority 2 with index 0: boom")
    ∧ noWrites (screate envPreCreateFail schNet storageOk (.ptr rWitness)
        (some ctxOpen) true).1 = true)
    ∧ invokedIds (handleEvent envPreCreateFailTwo "pre_create" []).1 = [5]
    ∧ (failFastRun
        ((sortInts (envPreCreateFailTwo.handlerKeys "pre_create")).flatMap
          (envPreCreateFailTwo.handlers "pre_create"))
        (ctxSet [] "event_type" (.vStr "pre_create"))).1.getLast? = some 5 :=
  ⟨c1_fail_fast.2.2.2.2.2.2.2.1 envPreCreateFail schNet storageOk rWitness
    (some ctxOpen) "42"
    (.msg "failed to dispatch event pre_create at priority 2 with index 0: boom")
    rfl rfl rfl,
   rfl,
   c1_fail_fast.2.2.1
     ((sortInts (envPreCreateFailTwo.handlerKeys "pre_create")).flatMap
       (envPreCreateFailTwo.handlers "pre_create"))
     (ctxSet [] "event_type" (.vStr "pre_create")) 5 (.msg "boom") rfl⟩

/-- resourceFromContext reads the environment only through its raw type
registry. -/
theorem resourceFromContext_congr (env₁ env₂ : Env) (sch : SchemaModel)
    (ctx : Ctx) (h : env₂.rawTypes = env₁.rawTypes) :
    resourceFromContext env₂ sch ctx = resourceFromContext env₁ sch ctx := by
  simp only [resourceFromContext, h]

/-- A schema dispatch depends on its priority key list only through the
sorted order. -/
theorem dispatchSchemaEvent_congr (env₁ env₂ : Env) (sch : SchemaModel)
    (keys₁ keys₂ : List Int) (buckets : Int → List (Nat × SHandler))
    (event : String) (ctx : Ctx) (hrt : env₂.rawTypes = env₁.rawTypes)
    (hk : sortInts keys₂ = sortInts keys₁) :
    dispatchSchemaEvent env₂ sch keys₂ buckets event ctx
      = dispatchSchemaEvent env₁ sch keys₁ buckets event ctx := by
  simp only [dispatchSchemaEvent,
    resourceFromContext_congr env₁ env₂ sch ctx hrt, hk]

/-- With a schema named in the context, the schema pass is invariant under
re-enumerations of the internal map keys. -/
theorem schemaPhase_congr (env₁ env₂ : Env) (event : String) (ctx : Ctx)
    (sid : String)
    (hsh : env₂.schemaHandlers = env₁.schemaHandlers)
    (hrt : env₂.rawTypes = env₁.rawTypes)
    (hsc : env₂.schemas = env₁.schemas)
    (hsk : List.Perm (env₂.schemaHandlerKeys event sid)
      (env₁.schemaHandlerKeys event sid))
    (hss : List.Perm (env₂.schemaHandlerSchemas event)
      (env₁.schemaHandlerSchemas event))
    (hsid : ctxGet ctx "schema_id" = some (.vStr sid)) :
    schemaPhase env₂ event ctx = schemaPhase env₁ event ctx := by
  by_cases hempty : env₁.schemaHandlerSchemas event = []
  · have hempty₂ : env₂.schemaHandlerSchemas event = [] :=
      (perm_eq_nil_iff hss).2 hempty
    simp [schemaPhase, hempty, hempty₂]
  · have hempty₂ : ¬(env₂.schemaHandlerSchemas event = []) :=
      fun hh => hempty ((perm_eq_nil_iff hss).1 hh)
    simp only [schemaPhase, if_neg hempty, if_neg hempty₂, hsid]
    by_cases hkeys : env₁.schemaHandlerKeys event sid = []
    · have hkeys₂ : env₂.schemaHandlerKeys event sid = [] :=
        (perm_eq_nil_iff hsk).2 hkeys
      simp [hkeys, hkeys₂]
    · have hkeys₂ : ¬(env₂.schemaHandlerKeys event sid = []) :=
        fun hh => hkeys ((perm_eq_nil_iff hsk).1 hh)
      simp only [if_neg hkeys, if_neg hkeys₂, hsc, hsh]
      cases hs : env₁.schemas sid with
      | none => rfl
      | some sch =>
        exact dispatchSchemaEvent_congr env₁ env₂ sch
          (env₁.schemaHandlerKeys event sid) (env₂.schemaHandlerKeys event sid)
          (env₁.schemaHandlers event sid) event ctx hrt
          (sortInts_eq_of_perm _ _ hsk)

/-- With a schema named in the context, a whole dispatch is invariant
under re-enumerations of the internal map keys. -/
theorem handleEvent_congr (env₁ env₂ : Env) (event : String) (ctx0 : Ctx)
    (sid : String)
    (hh : env₂.handlers = env₁.handlers)
    (hsh : env₂.schemaHandlers = env₁.schemaHandlers)
    (hrt : env₂.rawTypes = env₁.rawTypes)
    (hsc : env₂.schemas = env₁.schemas)
    (hk : List.Perm (env₂.handlerKeys event) (env₁.handlerKeys event))
    (hsk : List.Perm (env₂.schemaHandlerKeys event sid)
      (env₁.schemaHandlerKeys event sid))
    (hss : List.Perm (env₂.schemaHandlerSchemas event)
      (env₁.schemaHandlerSchemas event))
    (hsid : ctxGet ctx0 "schema_id" = some (.vStr sid)) :
    handleEvent env₂ event ctx0 = handleEvent env₁ event ctx0 := by
  have hsid' : ctxGet (ctxSet ctx0 "event_type" (.vStr event)) "schema_id"
      = some (.vStr sid) := by
    rw [ctxGet_ctxSet_ne ctx0 "schema_id" "event_type" _ (by decide)]
    exact hsid
  simp only [handleEvent,
    schemaPhase_congr env₁ env₂ event _ sid hsh hrt hsc hsk hss hsid',
    hh, sortInts_eq_of_perm _ _ hk]

/-- Claim C2: registration appends to exactly its (event, priority) bucket
(and its schema analog), leaving other buckets unchanged, so a bucket
stores its handlers in registration order; the sorted priority list is
ascending and a permutation of the keys; a dispatch with no failure
invokes exactly the planned order — sorted priorities, bucket order within
each — for the schema pass and then the generic pass; and, with a schema
named in the context, the dispatch outcome is invariant under
re-enumeration of the internal priority and schema map keys. -/
theorem c2_handler_order :
    (∀ env event h p,
      (registerEventHandler env event h p).handlers event p
        = env.handlers event p ++ [h])
  ∧ (∀ env event h p e' p', ¬(e' = event ∧ p' = p) →
      (registerEventHandler env event h p).handlers e' p' = env.handlers e' p')
  ∧ (∀ env sid event h p,
      (registerSchemaEventHandler env sid event h p).schemaHandlers event sid p
        = env.schemaHandlers event sid p ++ [h])
  ∧ (∀ env sid event h p e' s' p', ¬(e' = event ∧ s' = sid ∧ p' = p) →
      (registerSchemaEventHandler env sid event h p).schemaHandlers e' s' p'
        = env.schemaHandlers e' s' p')
  ∧ (∀ keys : List Int,
      (sortInts keys).Sorted (· ≤ ·) ∧ List.Perm (sortInts keys) keys)
  ∧ (∀ env event ctx, (handleEvent env event ctx).2.isOkB = true →
      invokedIds (handleEvent env event ctx).1 = planOf env event ctx)
  ∧ (∀ env₁ env₂ event ctx sid,
      env₂.handlers = env₁.handlers →
      env₂.schemaHandlers = env₁.schemaHandlers →
      env₂.rawTypes = env₁.rawTypes →
      env₂.schemas = env₁.schemas →
      List.Perm (env₂.handlerKeys event) (env₁.handlerKeys event) →
      List.Perm (env₂.schemaHandlerKeys event sid)
        (env₁.schemaHandlerKeys event sid) →
      List.Perm (env₂.schemaHandlerSchemas event)
        (env₁.schemaHandlerSchemas event) →
      ctxGet ctx "schema_id" = some (.vStr sid) →
      handleEvent env₂ event ctx = handleEvent env₁ event ctx) := by
  refine ⟨fun env event h p => by simp [registerEventHandler],
    fun env event h p e' p' hne => ?_,
    fun env sid event h p => by simp [registerSchemaEventHandler],
    fun env sid event h p e' s' p' hne => ?_,
    fun keys => ⟨sortInts_sorted keys, sortInts_perm keys⟩,
    fun env event ctx hok => (handleEvent_ids env event ctx).2 hok,
    fun env₁ env₂ event ctx sid hh hsh hrt hsc hk hsk hss hsid =>
      handleEvent_congr env₁ env₂ event ctx sid hh hsh hrt hsc hk hsk hss hsid⟩
  · simp only [registerEventHandler]
    rw [if_neg hne]
  · simp only [registerSchemaEventHandler]
    rw [if_neg hne]

/-- Witness for C2 at concrete inputs: a successful dispatch follows the
planned order, and two opposite enumerations of the same priority map give
the same dispatch. -/
theorem c2_handler_order_witness :
    invokedIds (handleEvent envPermA "ev" ctxSchemaNet).1
      = planOf envPermA "ev" ctxSchemaNet
    ∧ handleEvent envPermB "ev" ctxSchemaNet
      = handleEvent envPermA "ev" ctxSchemaNet :=
  ⟨c2_handler_order.2.2.2.2.2.1 envPermA "ev" ctxSchemaNet rfl,
   c2_handler_order.2.2.2.2.2.2 envPermA envPermB "ev" ctxSchemaNet "net"
     rfl rfl rfl rfl (by decide) (by decide) (by decide) rfl⟩

/-- A successful dispatch is a done result without error. -/
theorem isOkB_eq_done {d : DispatchOut} (h : d.isOkB = true) :
    ∃ c, d = .done c none := by
  cases d with
  | done c e => cases e <;> simp_all [DispatchOut.isOkB]
  | fatal m => simp [DispatchOut.isOkB] at h

/-- A successful outcome carries a value. -/
theorem outcome_isOkB_eq {α : Type} {o : Outcome α} (h : o.isOkB = true) :
    ∃ a, o = .ok a := by
  cases o <;> simp_all [Outcome.isOkB]

/-- The per-row dispatch context holds this row as the resource map, the
schema ID and the id of this row. -/
theorem deleteRowCtx_get (sch : SchemaModel) (r : RawResource) (rid : String)
    (ctx : Ctx) :
    ctxGet (deleteRowCtx sch r rid ctx) "resource" = some (resourceToMap r)
    ∧ ctxGet (deleteRowCtx sch r rid ctx) "schema_id" = some (.vStr sch.id)
    ∧ ctxGet (deleteRowCtx sch r rid ctx) "resource_id" = some (.vStr rid) := by
  refine ⟨?_, ?_, ?_⟩
  · rw [deleteRowCtx,
      ctxGet_ctxSet_ne _ "resource" "resource_id" _ (by decide),
      ctxGet_ctxSet_ne _ "resource" "schema_id" _ (by decide),
      ctxGet_ctxSet_same]
  · rw [deleteRowCtx,
      ctxGet_ctxSet_ne _ "schema_id" "resource_id" _ (by decide),
      ctxGet_ctxSet_same]
  · rw [deleteRowCtx, ctxGet_ctxSet_same]

/-- The trace of a dispatch starts with its dispatch start marker. -/
theorem handleEvent_head (env : Env) (event : String) (ctx0 : Ctx) :
    (handleEvent env event ctx0).1.head?
      = some (.dispatchStart event (ctxSet ctx0 "event_type" (.vStr event))) := by
  obtain ⟨tr, htr, _⟩ := handleEvent_acts env event ctx0
  rw [htr]
  rfl

/-- A fully successful delete row step is the pre-dispatch trace, the
storage delete of this row, and the post-dispatch trace, handing the
post-dispatch context to the next iteration. -/
theorem deleteRowStep_ok_eq (env : Env) (sch : SchemaModel)
    (storage : Storage) (r : RawResource) (ctx : Ctx) (rid : String)
    (hid : getResourceIdString r = .ok rid)
    (hpre : (handleEvent env "pre_delete" (deleteRowCtx sch r rid ctx)).2.isOkB
      = true)
    (hdel : storage.deleteRes rid = none)
    (hpost : (handleEvent env "post_delete"
      ((handleEvent env "pre_delete" (deleteRowCtx sch r rid ctx)).2.ctxOf)).2.isOkB
      = true) :
    deleteRowStep env sch storage true r ctx
      = ((handleEvent env "pre_delete" (deleteRowCtx sch r rid ctx)).1
          ++ [.storageDelete rid]
          ++ (handleEvent env "post_delete"
              ((handleEvent env "pre_delete" (deleteRowCtx sch r rid ctx)).2.ctxOf)).1,
         (handleEvent env "post_delete"
            ((handleEvent env "pre_delete" (deleteRowCtx sch r rid ctx)).2.ctxOf)).2.ctxOf,
         .ok ()) := by
  obtain ⟨cpre, hpre'⟩ := isOkB_eq_done hpre
  rw [hpre'] at hpost
  simp only [DispatchOut.ctxOf] at hpost
  obtain ⟨cpost, hpost'⟩ := isOkB_eq_done hpost
  simp [deleteRowStep, hid, hpre', hdel, hpost', DispatchOut.ctxOf]

/-- A fully successful delete row step performs exactly one storage
delete, one pre-delete dispatch and one post-delete dispatch. -/
theorem deleteRowStep_counts (env : Env) (sch : SchemaModel)
    (storage : Storage) (r : RawResource) (ctx : Ctx)
    (hok : (deleteRowStep env sch storage true r ctx).2.2.isOkB = true) :
    (deleteRowStep env sch storage true r ctx).1.countP isDeleteAct = 1
    ∧ (deleteRowStep env sch storage true r ctx).1.countP
        (isDispatchStartOf "pre_delete") = 1
    ∧ (deleteRowStep env sch storage true r ctx).1.countP
        (isDispatchStartOf "post_delete") = 1 := by
  cases hid : getResourceIdString r with
  | fatal m => simp [deleteRowStep, hid, Outcome.isOkB] at hok
  | err e => simp [deleteRowStep, hid, Outcome.isOkB] at hok
  | ok rid =>
    cases hpre : (handleEvent env "pre_delete" (deleteRowCtx sch r rid ctx)).2 with
    | fatal m => simp [deleteRowStep, hid, hpre, Outcome.isOkB] at hok
    | done cpre e? =>
      cases e? with
      | some e => simp [deleteRowStep, hid, hpre, Outcome.isOkB] at hok
      | none =>
        cases hdel : storage.deleteRes rid with
        | some e => simp [deleteRowStep, hid, hpre, hdel, Outcome.isOkB] at hok
        | none =>
          cases hpost : (handleEvent env "post_delete" cpre).2 with
          | fatal m =>
            simp [deleteRowStep, hid, hpre, hdel, hpost, Outcome.isOkB] at hok
          | done cpost e? =>
            cases e? with
            | some e =>
              simp [deleteRowStep, hid, hpre, hdel, hpost, Outcome.isOkB] at hok
            | none =>
              have htr : (deleteRowStep env sch storage true r ctx).1
                  = ((handleEvent env "pre_delete" (deleteRowCtx sch r rid ctx)).1
                      ++ [.storageDelete rid])
                    ++ (handleEvent env "post_delete" cpre).1 := by
                simp [deleteRowStep, hid, hpre, hdel, hpost]
              rw [htr]
              simp only [List.countP_append]
              rw [handleEvent_no_delete, handleEvent_no_delete]
              rw [handleEvent_count_start, handleEvent_count_start,
                handleEvent_count_start, handleEvent_count_start]
              refine ⟨?_, ?_, ?_⟩ <;> simp [isDeleteAct, isDispatchStartOf]

/-- A delete loop step with a successful row step prepends the row trace
and continues on the mutated context. -/
theorem deleteLoop_cons_ok (env : Env) (sch : SchemaModel) (storage : Storage)
    (trig : Bool) (r : RawResource) (rest : List RawResource) (ctx : Ctx)
    (hok : (deleteRowStep env sch storage trig r ctx).2.2.isOkB = true) :
    deleteLoop env sch storage trig (r :: rest) ctx
      = ((deleteRowStep env sch storage trig r ctx).1
          ++ (deleteLoop env sch storage trig rest
              (deleteRowStep env sch storage trig r ctx).2.1).1,
         (deleteLoop env sch storage trig rest
            (deleteRowStep env sch storage trig r ctx).2.1).2) := by
  obtain ⟨u, hu⟩ := outcome_isOkB_eq hok
  simp [deleteLoop, hu]

/-- A fully successful delete loop over N rows performs exactly N storage
deletes, N pre-delete dispatches and N post-delete dispatches. -/
theorem deleteLoop_counts (env : Env) (sch : SchemaModel) (storage : Storage)
    (rows : List RawResource) :
    ∀ ctx, (deleteLoop env sch storage true rows ctx).2.isOkB = true →
    (deleteLoop env sch storage true rows ctx).1.countP isDeleteAct
      = rows.length
    ∧ (deleteLoop env sch storage true rows ctx).1.countP
        (isDispatchStartOf "pre_delete") = rows.length
    ∧ (deleteLoop env sch storage true rows ctx).1.countP
        (isDispatchStartOf "post_delete") = rows.length := by
  induction rows with
  | nil => intro ctx _; exact ⟨rfl, rfl, rfl⟩
  | cons r rest ih =>
    intro ctx hok
    cases hstep : (deleteRowStep env sch storage true r ctx).2.2 with
    | err e => simp [deleteLoop, hstep, Outcome.isOkB] at hok
    | fatal m => simp [deleteLoop, hstep, Outcome.isOkB] at hok
    | ok u =>
      have hstepok : (deleteRowStep env sch storage true r ctx).2.2.isOkB
          = true := by rw [hstep]; rfl
      rw [deleteLoop_cons_ok env sch storage true r rest ctx hstepok] at hok ⊢
      obtain ⟨h1, h2, h3⟩ :=
        ih (deleteRowStep env sch storage true r ctx).2.1 hok
      obtain ⟨c1, c2, c3⟩ := deleteRowStep_counts env sch storage r ctx hstepok
      simp only [List.countP_append, List.length_cons, c1, c2, c3, h1, h2, h3]
      omega

/-- Delete first lists the rows matching the filter, then runs the row
loop on the resolved rows. -/
theorem sdelete_rows (env : Env) (sch : SchemaModel) (storage : Storage)
    (f : AttrMap) (ctx? : Option Ctx) (trig : Bool) (data : List AttrMap)
    (rows : List RawResource)
    (hop : hasOpenTransaction ctx? = true)
    (hlist : storage.listRes f = .ok data)
    (hrows : rowsToResources env sch data = .ok rows) :
    sdelete env sch storage f ctx? trig
      = ([.storageList f]
          ++ (deleteLoop env sch storage trig rows (ctx?.getD [])).1,
         (deleteLoop env sch storage trig rows (ctx?.getD [])).2) := by
  have hop' : hasOpenTransaction (some (ctx?.getD [])) = true := by
    cases ctx? with
    | none => simp [hasOpenTransaction] at hop
    | some c => exact hop
  simp [sdelete, mustGet_ok_of_open ctx? hop, listRaw,
    mustGet_ok_of_open _ hop', hlist, hrows]

/-- Claim C4: delete first resolves every row matching the filter, then
runs an independent pre-dispatch, storage-delete, post-dispatch sequence
per resolved row, each with that row and its id set in the dispatch
context; zero matched rows produce no event sequence and N matched rows
produce exactly N pre and N post dispatches and N storage deletes. -/
theorem c4_delete_per_row :
    (∀ env sch storage f ctx?, hasOpenTransaction ctx? = true →
      storage.listRes f = .ok [] →
      sdelete env sch storage f ctx? true = ([.storageList f], .ok ()))
  ∧ (∀ env sch storage f ctx? data rows, hasOpenTransaction ctx? = true →
      storage.listRes f = .ok data →
      rowsToResources env sch data = .ok rows →
      sdelete env sch storage f ctx? true
        = ([.storageList f]
            ++ (deleteLoop env sch storage true rows (ctx?.getD [])).1,
           (deleteLoop env sch storage true rows (ctx?.getD [])).2))
  ∧ (∀ env sch storage r rest ctx,
      (deleteRowStep env sch storage true r ctx).2.2.isOkB = true →
      deleteLoop env sch storage true (r :: rest) ctx
        = ((deleteRowStep env sch storage true r ctx).1
            ++ (deleteLoop env sch storage true rest
                (deleteRowStep env sch storage true r ctx).2.1).1,
           (deleteLoop env sch storage true rest
              (deleteRowStep env sch storage true r ctx).2.1).2))
  ∧ (∀ env sch storage r ctx rid, getResourceIdString r = .ok rid →
      (handleEvent env "pre_delete" (deleteRowCtx sch r rid ctx)).2.isOkB
        = true →
      storage.deleteRes rid = none →
      (handleEvent env "post_delete"
        ((handleEvent env "pre_delete"
          (deleteRowCtx sch r rid ctx)).2.ctxOf)).2.isOkB = true →
      deleteRowStep env sch storage true r ctx
        = ((handleEvent env "pre_delete" (deleteRowCtx sch r rid ctx)).1
            ++ [.storageDelete rid]
            ++ (handleEvent env "post_delete"
                ((handleEvent env "pre_delete"
                  (deleteRowCtx sch r rid ctx)).2.ctxOf)).1,
           (handleEvent env "post_delete"
              ((handleEvent env "pre_delete"
                (deleteRowCtx sch r rid ctx)).2.ctxOf)).2.ctxOf,
           .ok ())
      ∧ ctxGet (deleteRowCtx sch r rid ctx) "resource"
          = some (resourceToMap r)
      ∧ ctxGet (deleteRowCtx sch r rid ctx) "resource_id"
          = some (.vStr rid)
      ∧ ctxGet (deleteRowCtx sch r rid ctx) "schema_id"
          = some (.vStr sch.id)
      ∧ (handleEvent env "pre_delete" (deleteRowCtx sch r rid ctx)).1.head?
          = some (.dispatchStart "pre_delete"
              (ctxSet (deleteRowCtx sch r rid ctx) "event_type"
                (.vStr "pre_delete"))))
  ∧ (∀ env sch storage rows ctx,
      (deleteLoop env sch storage true rows ctx).2.isOkB = true →
      (deleteLoop env sch storage true rows ctx).1.countP isDeleteAct
        = rows.length
      ∧ (deleteLoop env sch storage true rows ctx).1.countP
          (isDispatchStartOf "pre_delete") = rows.length
      ∧ (deleteLoop env sch storage true rows ctx).1.countP
          (isDispatchStartOf "post_delete") = rows.length) := by
  refine ⟨fun env sch storage f ctx? hop hlist => ?_,
    fun env sch storage f ctx? data rows hop hlist hrows =>
      sdelete_rows env sch storage f ctx? true data rows hop hlist hrows,
    fun env sch storage r rest ctx hok =>
      deleteLoop_cons_ok env sch storage true r rest ctx hok,
    fun env sch storage r ctx rid hid hpre hdel hpost =>
      ⟨deleteRowStep_ok_eq env sch storage r ctx rid hid hpre hdel hpost,
       (deleteRowCtx_get sch r rid ctx).1,
       (deleteRowCtx_get sch r rid ctx).2.2,
       (deleteRowCtx_get sch r rid ctx).2.1,
       handleEvent_head env "pre_delete" _⟩,
    fun env sch storage rows ctx hok =>
      deleteLoop_counts env sch storage rows ctx hok⟩
  · rw [sdelete_rows env sch storage f ctx? true [] [] hop hlist rfl]
    rfl

/-- Witness for C4 at concrete inputs: a filter matching zero rows
produces no event sequence, and a delete over three resolved rows
performs exactly three storage deletes, three pre-delete dispatches and
three post-delete dispatches. -/
theorem c4_delete_per_row_witness :
    sdelete envIdOnly schIdOnly storageOk [] (some ctxOpen) true
      = ([.storageList []], .ok ())
    ∧ sdelete envIdOnly schIdOnly storageThreeRows [] (some ctxOpen) true
        = ([.storageList []]
            ++ (deleteLoop envIdOnly schIdOnly storageThreeRows true rowsResW
                ((some ctxOpen).getD [])).1,
           (deleteLoop envIdOnly schIdOnly storageThreeRows true rowsResW
              ((some ctxOpen).getD [])).2)
    ∧ (deleteLoop envIdOnly schIdOnly storageThreeRows true rowsResW
        ctxOpen).1.countP isDeleteAct = rowsResW.length
    ∧ (deleteLoop envIdOnly schIdOnly storageThreeRows true rowsResW
        ctxOpen).1.countP (isDispatchStartOf "pre_delete") = rowsResW.length :=
  ⟨c4_delete_per_row.1 envIdOnly schIdOnly storageOk [] (some ctxOpen)
      rfl rfl,
   c4_delete_per_row.2.1 envIdOnly schIdOnly storageThreeRows [] (some ctxOpen)
      rowsThree rowsResW rfl rfl rfl,
   (c4_delete_per_row.2.2.2.2 envIdOnly schIdOnly storageThreeRows rowsResW
      ctxOpen rfl).1,
   (c4_delete_per_row.2.2.2.2 envIdOnly schIdOnly storageThreeRows rowsResW
      ctxOpen rfl).2.1⟩

end Gohan
